import Mathlib

/-!
# Logging-compliance audit of API gateways

A shallow embedding of `provider/utils.go`, `provider/types.go` and the checking
functions of `provider/resource.go`, followed by theorems about them.

Modelling conventions.

* Go strings are Lean `String`s; `fmt.Sprintf` with `%s` verbs is concatenation.
* A Go `map[string][]string` is an association list with distinct keys
  (`StageMap`).  Go leaves the iteration order of a map unspecified; the
  `range` loops over a map visit the entries in the order of the list.
* A Go pointer that the code dereferences is an `Option`; dereferencing `nil`
  and slicing out of range are run-time panics, modelled by the result `none`
  of the enclosing function.
* The AWS collaborators behind `AwsApiGatewayProvider` are data: the paginator
  is the finite list of the answers of its `NextPage` calls, the clients are
  functions from a gateway id to the answer of `GetStages`.
* `json.Unmarshal` into a `map[string]string` is a parameter `unmarshal`.
-/

namespace Provider

/-! ## Strings (`strings.Split`, `strings.Join`) -/

/-- The pieces of a character list between the occurrences of `sep`. -/
def splitChars (sep : Char) : List Char → List (List Char)
  | [] => [[]]
  | c :: cs =>
    if c = sep then [] :: splitChars sep cs
    else (c :: (splitChars sep cs).headD []) :: (splitChars sep cs).tail

/-- Go `strings.Split(s, sep)` for a one-character separator. -/
def stringsSplit (s : String) (sep : Char) : List String :=
  (splitChars sep s.data).map String.mk

/-- Go `strings.Join(parts, sep)`. -/
def stringsJoin (parts : List String) (sep : String) : String :=
  sep.intercalate parts

/-! ## `utils.go` -/

/-- Go `diag.Severity`. -/
inductive Severity where
  | Error
  | Warning
deriving DecidableEq, Repr

/-- Go `diag.Diagnostic`, with the two fields the provider sets. -/
structure Diagnostic where
  severity : Severity
  summary : String
deriving DecidableEq, Repr

/-- Go `diag.Diagnostics`. -/
abbrev Diagnostics := List Diagnostic

/-- Function `contains` of `utils.go`: linear search. -/
def contains : List String → String → Bool
  | [], _ => false
  | a :: arr, val => if a = val then true else contains arr val

/-- Function `removeDuplicates` of `utils.go`: the keys of the map `chkMap`, here in the
order of their first insertion. -/
def removeDuplicates (arr : List String) : List String :=
  arr.foldl (fun chkMap a => if contains chkMap a then chkMap else chkMap ++ [a]) []

/-- Function `getExecutionLogGroupName` of `utils.go`. -/
def getExecutionLogGroupName (apiId : String) (stageName : String) : String :=
  "API-Gateway-Execution-Logs_" ++ apiId ++ "/" ++ stageName

/-- Function `getAccessLogGroupNameFromArn` of `utils.go`; the slice expression `[6:]`
panics when the split has fewer than six parts. -/
def getAccessLogGroupNameFromArn (arn : String) : Option String :=
  let parts := stringsSplit arn ':'
  if 6 ≤ parts.length then some (stringsJoin (parts.drop 6) ":") else none

/-- Function `newDiagnostic` of `utils.go`. -/
def newDiagnostic (severity : Severity) (summary : String) : Diagnostic :=
  { severity := severity, summary := summary }

/-- Function `errorDiagnostic` of `utils.go`. -/
def errorDiagnostic (summary : String) : Diagnostic :=
  newDiagnostic Severity.Error summary

/-- Function `warnDiagnostic` of `utils.go`. -/
def warnDiagnostic (summary : String) : Diagnostic :=
  newDiagnostic Severity.Warning summary

/-- Function `newDiagnostics` of `utils.go`. -/
def newDiagnostics (severity : Severity) (summary : String) : Diagnostics :=
  [newDiagnostic severity summary]

/-- Function `errorDiagnostics` of `utils.go`. -/
def errorDiagnostics (summary : String) : Diagnostics :=
  newDiagnostics Severity.Error summary

/-! ## `types.go` -/

/-- Variable `AccessLogFormatValues` of `types.go`. -/
def AccessLogFormatValues : List String :=
  ["$context.httpMethod", "$context.domainName", "$context.status", "$context.path"]

/-! ## Go maps from gateway id to stage names -/

/-- A `map[string][]string`. -/
abbrev StageMap := List (String × List String)

/-- The map read `v, ok := m[key]`. -/
def mapGet : StageMap → String → Option (List String)
  | [], _ => none
  | (k, v) :: m, key => if k = key then some v else mapGet m key

/-- The statement `delete(m, key)`. -/
def mapDelete (m : StageMap) (key : String) : StageMap :=
  m.filter (fun p => decide (p.1 ≠ key))

/-- The assignment `m[key] = v`. -/
def mapSet (m : StageMap) (key : String) (v : List String) : StageMap :=
  mapDelete m key ++ [(key, v)]

/-! ## `checkApiGateways`: the token loop -/

/-- The variables of the token loop of `checkApiGateways`. -/
structure ParseState where
  apiAllStages : List String
  apiWithStage : StageMap
  diagnostics : Diagnostics
deriving DecidableEq, Repr

/-- The state before the first token. -/
def ParseState.init : ParseState :=
  { apiAllStages := [], apiWithStage := [], diagnostics := [] }

/-- One iteration of the token loop (resource.go, lines 91 to 106). -/
def parseToken (st : ParseState) (elem : String) : ParseState :=
  match stringsSplit elem '/' with
  | [id, stage] =>
    if !contains st.apiAllStages id then
      { st with apiWithStage :=
          mapSet st.apiWithStage id ((mapGet st.apiWithStage id).getD [] ++ [stage]) }
    else st
  | [id] =>
    { st with
      apiAllStages := st.apiAllStages ++ [id]
      apiWithStage :=
        if (mapGet st.apiWithStage id).isSome then mapDelete st.apiWithStage id
        else st.apiWithStage }
  | _ =>
    { st with diagnostics :=
        st.diagnostics ++ [errorDiagnostic ("api gateway syntax is wrong for " ++ elem)] }

/-- The token loop of `checkApiGateways`. -/
def parseTokens (apiGateways : List String) : ParseState :=
  apiGateways.foldl parseToken ParseState.init

/-! ## The collaborators (AWS SDK types, with the fields the provider reads) -/

/-- The pair `(res, err)` returned by an SDK call: `res` is `none` for a nil
output pointer, `err` holds `err.Error()` when `err != nil`. -/
structure Answer (α : Type) where
  res : Option α
  err : Option String

/-- SDK `types.RestApi`: the field `Id *string`. -/
structure RestApi where
  Id : Option String
deriving DecidableEq, Repr

/-- SDK (v2) `types.Api`: the field `ApiId *string`. -/
structure Api where
  ApiId : Option String
deriving DecidableEq, Repr

/-- SDK `types.MethodSetting`: `LoggingLevel *string`, `DataTraceEnabled bool`. -/
structure MethodSetting where
  LoggingLevel : Option String
  DataTraceEnabled : Bool
deriving DecidableEq, Repr

/-- SDK `types.AccessLogSettings` (both families): `DestinationArn *string`,
`Format *string`. -/
structure AccessLogSettings where
  DestinationArn : Option String
  Format : Option String
deriving DecidableEq, Repr

/-- SDK `types.Stage` of the REST family: `StageName *string`,
`MethodSettings map[string]MethodSetting`, `AccessLogSettings *AccessLogSettings`. -/
structure Stage where
  StageName : Option String
  MethodSettings : List (String × MethodSetting)
  AccessLogSettings : Option AccessLogSettings
deriving DecidableEq, Repr

/-- SDK (v2) `types.Stage` of the HTTP family. -/
structure StageV2 where
  StageName : Option String
  AccessLogSettings : Option AccessLogSettings
deriving DecidableEq, Repr

/-- Interface `AwsApiGatewayProvider` of `types.go` as data.  `restApisPages` lists the
answers of the successive `NextPage` calls of the paginator (`HasMorePages`
holds while answers remain); `getStages` and `getStagesV2` are the `GetStages`
calls of the two clients, `getApis` is the `GetApis` call. -/
structure AwsApiGatewayProvider where
  restApisPages : List (Answer (List RestApi))
  getStages : String → Answer (List Stage)
  getApis : Answer (List Api)
  getStagesV2 : String → Answer (List StageV2)

/-- The map read `v, ok := m[key]` on a map with string keys. -/
def lookupKey {α : Type} : List (String × α) → String → Option α
  | [], _ => none
  | (k, v) :: m, key => if k = key then some v else lookupKey m key

/-! ## `verifyAccessLogFormat` -/

/-- The type of `json.Unmarshal([]byte(s), &parsed)` for `parsed map[string]string`:
`some m` when it returns no error and leaves `m` in `parsed`, `none` otherwise. -/
abbrev Unmarshal := String → Option (List (String × String))

/-- Go `fmt.Sprintf("%v", xs)` for a `[]string`. -/
def formatSlice (xs : List String) : String :=
  "[" ++ " ".intercalate xs ++ "]"

/-- The two parsing attempts of `verifyAccessLogFormat` (lines 263 to 267). -/
def parseFormat (unmarshal : Unmarshal) (format : String) : Option (List (String × String)) :=
  match unmarshal format with
  | some parsed => some parsed
  | none => unmarshal ("\x7b" ++ format ++ "\x7d")

/-- The required-value check of `verifyAccessLogFormat` (lines 268 to 282). -/
def checkFormatValues (parsed : List (String × String)) : Option Diagnostic :=
  let foundValues := (parsed.map Prod.snd).filter (fun value => contains AccessLogFormatValues value)
  let missingValues := AccessLogFormatValues.filter (fun value => !contains foundValues value)
  if missingValues.length > 0 then
    some (warnDiagnostic ("Access log format is missing required values " ++ formatSlice missingValues))
  else none

/-- Function `verifyAccessLogFormat` of `resource.go`; `none` is the nil diagnostic. -/
def verifyAccessLogFormat (unmarshal : Unmarshal) (format : String) : Option Diagnostic :=
  match parseFormat unmarshal format with
  | none => some (warnDiagnostic "Access log format is not JSON parsable")
  | some parsed => checkFormatValues parsed

/-! ## The stage loops -/

/-- The pair `(diagnostics, logGroupNames)` accumulated by the stage loops. -/
abbrev Findings := Diagnostics × List String

/-- The warning of the access-log block for an absent destination (lines 209, 210
and 244, 245; both families say `REST API`). -/
def accessLogsNotEnabled (apiId stageName : String) (acc : Findings) : Findings :=
  (acc.1 ++ [warnDiagnostic
    ("Access logs not enabled for REST API " ++ apiId ++ " stage " ++ stageName)], acc.2)

/-- The access-log block of both stage loops (lines 208 to 219 and 243 to 254). -/
def checkAccessLog (unmarshal : Unmarshal) (apiId stageName : String)
    (settings : Option AccessLogSettings) (acc : Findings) : Option Findings :=
  match settings with
  | none => some (accessLogsNotEnabled apiId stageName acc)
  | some s =>
    match s.DestinationArn with
    | none => some (accessLogsNotEnabled apiId stageName acc)
    | some arn =>
      match s.Format with
      | none => none
      | some format =>
        match verifyAccessLogFormat unmarshal format with
        | some diagnosticAccessLog =>
          some (acc.1 ++ [{ diagnosticAccessLog with
            summary :=
              diagnosticAccessLog.summary ++ " for API " ++ apiId ++ " stage " ++ stageName }],
            acc.2)
        | none =>
          match getAccessLogGroupNameFromArn arn with
          | none => none
          | some name => some (acc.1, acc.2 ++ [name])

/-- The execution-log block of the REST stage loop (lines 191 to 204). -/
def checkExecutionLog (apiId stageName : String) (methodSettings : List (String × MethodSetting))
    (acc : Findings) : Option Findings :=
  match lookupKey methodSettings "*/*" with
  | none => some acc
  | some settings =>
    match settings.LoggingLevel with
    | none => none
    | some level =>
      if level = "INFO" && settings.DataTraceEnabled then
        some (acc.1, acc.2 ++ [getExecutionLogGroupName apiId stageName])
      else if level = "INFO" then
        some (acc.1 ++ [warnDiagnostic
          ("Full Request and Response Logs not enabled for API " ++ apiId ++ " stage " ++ stageName)],
          acc.2)
      else if level = "ERROR" then
        some (acc.1 ++ [warnDiagnostic
          ("Execution logs set to Errors Only for API " ++ apiId ++ " stage " ++ stageName)], acc.2)
      else
        some (acc.1 ++ [warnDiagnostic
          ("Execution logs not enabled for API " ++ apiId ++ " stage " ++ stageName)], acc.2)

/-- One iteration of the inner loop of `checkRestApiGatewayStages` (lines 186 to 220). -/
def checkRestStage (unmarshal : Unmarshal) (exclude ignoreAccessLogSettings : Bool)
    (apiId : String) (apiStages : List String) (acc : Findings) (stage : Stage) :
    Option Findings :=
  match stage.StageName with
  | none => none
  | some stageName =>
    if apiStages.length > 0 && (contains apiStages stageName == exclude) then some acc
    else
      match checkExecutionLog apiId stageName stage.MethodSettings acc with
      | none => none
      | some acc1 =>
        if ignoreAccessLogSettings then some acc1
        else checkAccessLog unmarshal apiId stageName stage.AccessLogSettings acc1

/-- One iteration of the inner loop of `checkApiGatewayV2Stages` (lines 238 to 255). -/
def checkV2Stage (unmarshal : Unmarshal) (exclude : Bool)
    (apiId : String) (apiStages : List String) (acc : Findings) (stage : StageV2) :
    Option Findings :=
  match stage.StageName with
  | none => none
  | some stageName =>
    if apiStages.length > 0 && (contains apiStages stageName == exclude) then some acc
    else checkAccessLog unmarshal apiId stageName stage.AccessLogSettings acc

/-- The error diagnostic appended when an SDK call returns `err != nil`. -/
def recordError (call : String) (err : Option String) (diagnostics : Diagnostics) : Diagnostics :=
  match err with
  | none => diagnostics
  | some e => diagnostics ++ [errorDiagnostic ("Error while invoking " ++ call ++ " sdk call: " ++ e)]

/-- One iteration of the outer loop of `checkRestApiGatewayStages` (lines 178 to 221). -/
def checkRestGateway (conn : AwsApiGatewayProvider) (unmarshal : Unmarshal)
    (exclude ignoreAccessLogSettings : Bool) (acc : Findings) (entry : String × List String) :
    Option Findings :=
  let answer := conn.getStages entry.1
  match answer.res with
  | none => none
  | some items =>
    items.foldlM (checkRestStage unmarshal exclude ignoreAccessLogSettings entry.1 entry.2)
      (recordError "getStages" answer.err acc.1, acc.2)

/-- Function `checkRestApiGatewayStages` of `resource.go`. -/
def checkRestApiGatewayStages (conn : AwsApiGatewayProvider) (unmarshal : Unmarshal)
    (apiStageMappingRest : StageMap) (exclude ignoreAccessLogSettings : Bool) : Option Findings :=
  apiStageMappingRest.foldlM (checkRestGateway conn unmarshal exclude ignoreAccessLogSettings)
    ([], [])

/-- One iteration of the outer loop of `checkApiGatewayV2Stages` (lines 230 to 256). -/
def checkV2Gateway (conn : AwsApiGatewayProvider) (unmarshal : Unmarshal)
    (exclude : Bool) (acc : Findings) (entry : String × List String) : Option Findings :=
  let answer := conn.getStagesV2 entry.1
  match answer.res with
  | none => none
  | some items =>
    items.foldlM (checkV2Stage unmarshal exclude entry.1 entry.2)
      (recordError "getStages" answer.err acc.1, acc.2)

/-- Function `checkApiGatewayV2Stages` of `resource.go`. -/
def checkApiGatewayV2Stages (conn : AwsApiGatewayProvider) (unmarshal : Unmarshal)
    (apiStageMappingV2 : StageMap) (exclude : Bool) : Option Findings :=
  apiStageMappingV2.foldlM (checkV2Gateway conn unmarshal exclude) ([], [])

/-! ## The gateway loops -/

/-- The body of the loops over the catalog (lines 130 to 136 and 157 to 163). -/
def selectStages (apiAllStages : List String) (apiWithStage : StageMap) (exclude : Bool)
    (mapping : StageMap) (apiId : String) : StageMap :=
  match mapGet apiWithStage apiId with
  | some apiStages => mapSet mapping apiId apiStages
  | none =>
    if contains apiAllStages apiId != exclude then mapSet mapping apiId [] else mapping

/-- The loop over one page of REST gateways (lines 129 to 137). -/
def selectRestPage (apiAllStages : List String) (apiWithStage : StageMap) (exclude : Bool)
    (mapping : StageMap) (items : List RestApi) : Option StageMap :=
  items.foldlM (fun m restApi =>
    match restApi.Id with
    | none => none
    | some apiId => some (selectStages apiAllStages apiWithStage exclude m apiId)) mapping

/-- One iteration of the paginator loop of `checkRestApiGateways` (lines 124 to 137). -/
def restPageStep (apiAllStages : List String) (apiWithStage : StageMap) (exclude : Bool)
    (acc : Diagnostics × StageMap) (page : Answer (List RestApi)) :
    Option (Diagnostics × StageMap) :=
  match page.res with
  | none => none
  | some items =>
    match selectRestPage apiAllStages apiWithStage exclude acc.2 items with
    | none => none
    | some m => some (recordError "getRestApis" page.err acc.1, m)

/-- The paginator loop of `checkRestApiGateways` (lines 121 to 138): the
diagnostics and the map `apiStageMappingRest` it builds. -/
def restStageMapping (conn : AwsApiGatewayProvider) (apiAllStages : List String)
    (apiWithStage : StageMap) (exclude : Bool) : Option (Diagnostics × StageMap) :=
  conn.restApisPages.foldlM (restPageStep apiAllStages apiWithStage exclude) ([], [])

/-- Function `checkRestApiGateways` of `resource.go`. -/
def checkRestApiGateways (conn : AwsApiGatewayProvider) (unmarshal : Unmarshal)
    (apiAllStages : List String) (apiWithStage : StageMap)
    (exclude ignoreAccessLogSettings : Bool) : Option Findings :=
  match restStageMapping conn apiAllStages apiWithStage exclude with
  | none => none
  | some (diagnostics, apiStageMappingRest) =>
    match checkRestApiGatewayStages conn unmarshal apiStageMappingRest exclude
        ignoreAccessLogSettings with
    | none => none
    | some (stagesDiagnostics, logGroupNames) =>
      some (diagnostics ++ stagesDiagnostics, logGroupNames)

/-- The loop over the HTTP gateways (lines 156 to 164). -/
def selectV2Items (apiAllStages : List String) (apiWithStage : StageMap) (exclude : Bool)
    (mapping : StageMap) (items : List Api) : Option StageMap :=
  items.foldlM (fun m httpApi =>
    match httpApi.ApiId with
    | none => none
    | some apiId => some (selectStages apiAllStages apiWithStage exclude m apiId)) mapping

/-- The catalog part of `checkApiGatewaysV2` (lines 149 to 164): the diagnostics
and the map `apiStageMappingV2` it builds. -/
def v2StageMapping (conn : AwsApiGatewayProvider) (apiAllStages : List String)
    (apiWithStage : StageMap) (exclude : Bool) : Option (Diagnostics × StageMap) :=
  match conn.getApis.res with
  | none => none
  | some items =>
    match selectV2Items apiAllStages apiWithStage exclude [] items with
    | none => none
    | some m => some (recordError "getApis" conn.getApis.err [], m)

/-- Function `checkApiGatewaysV2` of `resource.go`. -/
def checkApiGatewaysV2 (conn : AwsApiGatewayProvider) (unmarshal : Unmarshal)
    (apiAllStages : List String) (apiWithStage : StageMap)
    (exclude ignoreAccessLogSettings : Bool) : Option Findings :=
  match v2StageMapping conn apiAllStages apiWithStage exclude with
  | none => none
  | some (diagnostics, apiStageMappingV2) =>
    if !ignoreAccessLogSettings then
      match checkApiGatewayV2Stages conn unmarshal apiStageMappingV2 exclude with
      | none => none
      | some (stagesDiagnostics, logGroupNames) =>
        some (diagnostics ++ stagesDiagnostics, logGroupNames)
    else some (diagnostics, [])

/-- Function `checkApiGateways` of `resource.go`. -/
def checkApiGateways (conn : AwsApiGatewayProvider) (unmarshal : Unmarshal)
    (apiGateways : List String) (exclude ignoreAccessLogSettings : Bool) : Option Findings :=
  if !exclude && apiGateways.length == 0 then
    some (errorDiagnostics "api_gateways cannot be empty when action is include.", [])
  else
    let st := parseTokens apiGateways
    match checkRestApiGateways conn unmarshal st.apiAllStages st.apiWithStage exclude
        ignoreAccessLogSettings with
    | none => none
    | some (restApiGatewaysDiagnostics, logGroupNames) =>
      match checkApiGatewaysV2 conn unmarshal st.apiAllStages st.apiWithStage exclude
          ignoreAccessLogSettings with
      | none => none
      | some (apiGatewayV2Diagnostics, apiGatewayV2LogGroupNames) =>
        some (st.diagnostics ++ restApiGatewaysDiagnostics ++ apiGatewayV2Diagnostics,
          removeDuplicates (logGroupNames ++ apiGatewayV2LogGroupNames))

/-! ## Sample collaborators -/

/-- A format with the four required values. -/
def goodFormat : String := "good"

/-- A stand-in for `json.Unmarshal` that parses the single text `goodFormat`. -/
def sampleUnmarshal : Unmarshal := fun s =>
  if s = goodFormat then
    some [("m", "$context.httpMethod"), ("d", "$context.domainName"),
          ("s", "$context.status"), ("p", "$context.path")]
  else none

/-- A REST stage with the given name, catch-all settings and access-log settings. -/
def mkStage (name : String) (settings : Option MethodSetting)
    (access : Option AccessLogSettings) : Stage :=
  { StageName := some name
    MethodSettings := match settings with
      | none => []
      | some s => [("*/*", s)]
    AccessLogSettings := access }

/-- A provider with one page of REST gateways, no HTTP gateways, and the given stages. -/
def restOnly (ids : List String) (stages : String → List Stage) : AwsApiGatewayProvider :=
  { restApisPages := [{ res := some (ids.map (fun i => { Id := some i })), err := none }]
    getStages := fun apiId => { res := some (stages apiId), err := none }
    getApis := { res := some [], err := none }
    getStagesV2 := fun _ => { res := some [], err := none } }

/-! ## Catalogs -/

/-- The gateway ids of a list of REST catalog items. -/
def restItemIds (items : List RestApi) : List String :=
  items.filterMap (fun restApi => restApi.Id)

/-- The gateway ids of the REST catalog: the items of every page. -/
def restCatalogIds (conn : AwsApiGatewayProvider) : List String :=
  (conn.restApisPages.map (fun page => restItemIds (page.res.getD []))).flatten

/-- The gateway ids of the HTTP catalog. -/
def v2CatalogIds (conn : AwsApiGatewayProvider) : List String :=
  (conn.getApis.res.getD []).filterMap (fun httpApi => httpApi.ApiId)

/-- Every REST page has an output and every item an id: the paginator loop
dereferences no nil pointer. -/
def restCatalogOk (conn : AwsApiGatewayProvider) : Prop :=
  ∀ page ∈ conn.restApisPages, ∃ items, page.res = some items ∧
    ∀ restApi ∈ items, restApi.Id ≠ none

/-- The `GetApis` call has an output and every item an id. -/
def v2CatalogOk (conn : AwsApiGatewayProvider) : Prop :=
  ∃ items, conn.getApis.res = some items ∧ ∀ httpApi ∈ items, httpApi.ApiId ≠ none

/-! ## Definitions used by the statements -/

/-- A provider whose REST and HTTP catalogs both hold the gateways `A` and `B`. -/
def catalogAB : AwsApiGatewayProvider :=
  { restApisPages := [{ res := some [{ Id := some "A" }, { Id := some "B" }], err := none }]
    getStages := fun _ => { res := some [], err := none }
    getApis := { res := some [{ ApiId := some "A" }, { ApiId := some "B" }], err := none }
    getStagesV2 := fun _ => { res := some [], err := none } }

/-- No gateway id is in `apiAllStages` and a key of `apiWithStage`. -/
def IntentDisjoint (st : ParseState) : Prop :=
  ∀ id, contains st.apiAllStages id = true → mapGet st.apiWithStage id = none

/-- Every specific-stage list of the intent is non-empty. -/
def StagesNonEmpty (st : ParseState) : Prop :=
  ∀ id stages, mapGet st.apiWithStage id = some stages → stages ≠ []

/-- The stage named by a specific-stage token of gateway `id`. -/
def stageOfToken (id : String) (elem : String) : Option String :=
  match stringsSplit elem '/' with
  | [tokenId, stage] => if tokenId = id then some stage else none
  | _ => none

/-- A REST stage `prod` with level `INFO`, trace enabled, a log-group destination and
a format with the four required values. -/
def compliantStage : Stage :=
  mkStage "prod" (some { LoggingLevel := some "INFO", DataTraceEnabled := true })
    (some { DestinationArn := some "arn:aws:logs:eu-west-1:123456789012:log-group:audit"
            Format := some goodFormat })

/-- An HTTP stage `prod` with a log-group destination and a format with the four
required values. -/
def compliantStageV2 : StageV2 :=
  { StageName := some "prod"
    AccessLogSettings :=
      some { DestinationArn := some "arn:aws:logs:eu-west-1:123456789012:log-group:audit"
             Format := some goodFormat } }

/-- The character-level join: the pieces with `sep` between neighbours. -/
def joinChars (sep : List Char) : List (List Char) → List Char
  | [] => []
  | [a] => a
  | a :: b :: rest => a ++ sep ++ joinChars sep (b :: rest)

/-- A stand-in for `json.Unmarshal` that parses the text `goodFormat` between braces
and the text `some`, whose values lack the status and the path. -/
def bracedUnmarshal : Unmarshal := fun s =>
  if s = "\x7b" ++ goodFormat ++ "\x7d" then
    some [("m", "$context.httpMethod"), ("d", "$context.domainName"),
          ("s", "$context.status"), ("p", "$context.path")]
  else if s = "some" then
    some [("m", "$context.httpMethod"), ("d", "$context.domainName"), ("x", "other")]
  else none

/-- An HTTP stage `prod` whose destination has three colon-separated fields and whose
format holds the four required values. -/
def shortArnStageV2 : StageV2 :=
  { StageName := some "prod"
    AccessLogSettings := some { DestinationArn := some "arn:aws:logs", Format := some goodFormat } }

/-- A provider with an empty REST catalog, the HTTP gateways `ids`, and the given
HTTP stages. -/
def httpOnly (ids : List String) (stages : String → List StageV2) : AwsApiGatewayProvider :=
  { restApisPages := []
    getStages := fun _ => { res := some [], err := none }
    getApis := { res := some (ids.map (fun i => { ApiId := some i })), err := none }
    getStagesV2 := fun apiId => { res := some (stages apiId), err := none } }

/-- The error diagnostics of the REST paginator loop: one for each page whose
`NextPage` call returned an error. -/
def restCatalogDiagnostics (conn : AwsApiGatewayProvider) : Diagnostics :=
  conn.restApisPages.foldl (fun d page => recordError "getRestApis" page.err d) []

/-- A token that splits on the slash into three or more parts. -/
def isMalformed (elem : String) : Bool :=
  decide (3 ≤ (stringsSplit elem '/').length)

/-- The diagnostic of the token loop for a malformed token. -/
def malformedDiagnostic (elem : String) : Diagnostic :=
  { severity := Severity.Error, summary := "api gateway syntax is wrong for " ++ elem }

/-- A REST stage `dev` with no method settings and the same destination as
`compliantStage`. -/
def sharedDestinationStage : Stage :=
  mkStage "dev" none
    (some { DestinationArn := some "arn:aws:logs:eu-west-1:123456789012:log-group:audit"
            Format := some goodFormat })

/-- The text `p` is a prefix of the text `s` (Go `strings.HasPrefix(s, p)`). -/
def hasPrefix (p s : String) : Bool :=
  p.data.isPrefixOf s.data

/-- The diagnostics of the access-log block and of `verifyAccessLogFormat`: their
messages begin with `Access log`. -/
def isAccessLogDiagnostic (d : Diagnostic) : Bool :=
  hasPrefix "Access log" d.summary

/-- The diagnostics of the execution-log block: their messages begin with
`Execution logs` or with `Full Request and Response Logs`. -/
def isExecutionLogDiagnostic (d : Diagnostic) : Bool :=
  hasPrefix "Execution logs" d.summary || hasPrefix "Full Request and Response Logs" d.summary

/-- A name that `getExecutionLogGroupName` builds. -/
def IsExecutionLogName (name : String) : Prop :=
  ∃ apiId stageName, name = getExecutionLogGroupName apiId stageName

/-- A provider whose `GetStages` calls return an error and no output for gateway `A`,
and one stage without settings for every other gateway; both catalogs hold `A`
and `B`. -/
def failingStages : AwsApiGatewayProvider :=
  { restApisPages := [{ res := some [{ Id := some "A" }, { Id := some "B" }], err := none }]
    getStages := fun apiId =>
      if apiId = "A" then { res := none, err := some "boom" }
      else { res := some [mkStage "prod" none none], err := none }
    getApis := { res := some [{ ApiId := some "A" }, { ApiId := some "B" }], err := none }
    getStagesV2 := fun apiId =>
      if apiId = "A" then { res := none, err := some "boom" }
      else { res := some [{ StageName := some "prod", AccessLogSettings := none }], err := none } }

/-- The provider `failingStages` with an empty output next to the error. -/
def failingStagesWithOutput : AwsApiGatewayProvider :=
  { failingStages with
    getStages := fun apiId =>
      if apiId = "A" then { res := some [], err := some "boom" }
      else { res := some [mkStage "prod" none none], err := none }
    getStagesV2 := fun apiId =>
      if apiId = "A" then { res := some [], err := some "boom" }
      else { res := some [{ StageName := some "prod", AccessLogSettings := none }], err := none } }

/-- Findings without access-log diagnostic whose names are execution-log names. -/
def NoAccessLogFindings (acc : Findings) : Prop :=
  (∀ d ∈ acc.1, isAccessLogDiagnostic d = false) ∧ (∀ n ∈ acc.2, IsExecutionLogName n)

/-- Two findings with the same execution-log diagnostics. -/
def SameExecutionLog (a b : Findings) : Prop :=
  a.1.filter isExecutionLogDiagnostic = b.1.filter isExecutionLogDiagnostic

/-- A REST stage `prod` with error-only execution logs and no access-log settings. -/
def errorsOnlyStage : Stage :=
  mkStage "prod" (some { LoggingLevel := some "ERROR", DataTraceEnabled := false }) none

/-! ## Basic facts -/

theorem contains_iff (arr : List String) (val : String) :
    contains arr val = true ↔ val ∈ arr := by
  induction arr with
  | nil => simp [contains]
  | cons a arr ih =>
    by_cases h : a = val
    · simp [contains, h]
    · simp [contains, h, ih, Ne.symm h]

theorem contains_append (xs ys : List String) (v : String) :
    contains (xs ++ ys) v = (contains xs v || contains ys v) := by
  induction xs with
  | nil => simp [contains]
  | cons a xs ih =>
    by_cases h : a = v <;> simp [contains, h, ih]

theorem mapGet_mapDelete_self (m : StageMap) (k : String) : mapGet (mapDelete m k) k = none := by
  induction m with
  | nil => simp [mapDelete, mapGet]
  | cons p m ih =>
    obtain ⟨a, b⟩ := p
    by_cases h : a = k
    · simpa [mapDelete, h] using ih
    · simpa [mapDelete, h, mapGet] using ih

theorem mapGet_mapDelete_ne (m : StageMap) (k key : String) (h : k ≠ key) :
    mapGet (mapDelete m k) key = mapGet m key := by
  induction m with
  | nil => simp [mapDelete, mapGet]
  | cons p m ih =>
    obtain ⟨a, b⟩ := p
    by_cases ha : a = k
    · subst ha
      simpa [mapDelete, mapGet, h] using ih
    · by_cases hk : a = key
      · subst hk
        simp [mapDelete, ha, mapGet]
      · simpa [mapDelete, ha, mapGet, hk] using ih

theorem mapGet_append_single (m : StageMap) (k key : String) (v : List String) :
    mapGet (m ++ [(k, v)]) key =
      match mapGet m key with
      | some x => some x
      | none => if k = key then some v else none := by
  induction m with
  | nil => simp [mapGet]
  | cons p m ih =>
    obtain ⟨a, b⟩ := p
    by_cases ha : a = key
    · simp [mapGet, ha]
    · simpa [mapGet, ha] using ih

theorem mapGet_mapSet_self (m : StageMap) (k : String) (v : List String) :
    mapGet (mapSet m k v) k = some v := by
  simp [mapSet, mapGet_append_single, mapGet_mapDelete_self]

theorem mapGet_mapSet_ne (m : StageMap) (k key : String) (v : List String) (h : k ≠ key) :
    mapGet (mapSet m k v) key = mapGet m key := by
  simp only [mapSet, mapGet_append_single, mapGet_mapDelete_ne m k key h]
  cases mapGet m key <;> simp [h]

/-- The value that the catalog loop leaves at a gateway id of the catalog. -/
theorem mapGet_foldl_selectStages (apiAllStages : List String) (apiWithStage : StageMap)
    (exclude : Bool) (ids : List String) (m0 : StageMap) (g : String) :
    mapGet (ids.foldl (selectStages apiAllStages apiWithStage exclude) m0) g =
      if g ∈ ids then
        match mapGet apiWithStage g with
        | some apiStages => some apiStages
        | none => if contains apiAllStages g != exclude then some [] else mapGet m0 g
      else mapGet m0 g := by
  induction ids generalizing m0 with
  | nil => simp
  | cons a ids ih =>
    rw [List.foldl_cons, ih]
    by_cases hag : a = g
    · subst hag
      by_cases hin : a ∈ ids
      · simp only [hin, List.mem_cons, true_or, if_true]
        cases hw : mapGet apiWithStage a with
        | some x => rfl
        | none =>
          by_cases hc : (contains apiAllStages a != exclude) = true
          · simp [hc]
          · simp [hc, selectStages, hw]
      · simp only [hin, List.mem_cons, true_or, if_true, if_false]
        cases hw : mapGet apiWithStage a with
        | some x => simp [selectStages, hw, mapGet_mapSet_self]
        | none =>
          by_cases hc : (contains apiAllStages a != exclude) = true
          · simp [hc, selectStages, hw, mapGet_mapSet_self]
          · simp [hc, selectStages, hw]
    · have hstep : mapGet (selectStages apiAllStages apiWithStage exclude m0 a) g = mapGet m0 g := by
        unfold selectStages
        cases mapGet apiWithStage a with
        | some x => simp [mapGet_mapSet_ne _ _ _ _ hag]
        | none =>
          by_cases hc : (contains apiAllStages a != exclude) = true
          · simp [hc, mapGet_mapSet_ne _ _ _ _ hag]
          · simp [hc]
      have hne : g ≠ a := fun h => hag h.symm
      simp only [List.mem_cons, hne, false_or, hstep]

theorem selectRestPage_eq (apiAllStages : List String) (apiWithStage : StageMap)
    (exclude : Bool) (items : List RestApi) (m0 m : StageMap)
    (h : selectRestPage apiAllStages apiWithStage exclude m0 items = some m) :
    m = (restItemIds items).foldl (selectStages apiAllStages apiWithStage exclude) m0 := by
  induction items generalizing m0 with
  | nil => simpa [selectRestPage, restItemIds] using h.symm
  | cons a items ih =>
    unfold selectRestPage at h
    rw [List.foldlM_cons] at h
    cases ha : a.Id with
    | none => simp [ha] at h
    | some i =>
      simp only [ha, Option.some_bind, Option.bind_eq_bind] at h
      have := ih _ h
      simpa [restItemIds, ha] using this

theorem selectV2Items_eq (apiAllStages : List String) (apiWithStage : StageMap)
    (exclude : Bool) (items : List Api) (m0 m : StageMap)
    (h : selectV2Items apiAllStages apiWithStage exclude m0 items = some m) :
    m = (items.filterMap (fun httpApi => httpApi.ApiId)).foldl
      (selectStages apiAllStages apiWithStage exclude) m0 := by
  induction items generalizing m0 with
  | nil => simpa [selectV2Items] using h.symm
  | cons a items ih =>
    unfold selectV2Items at h
    rw [List.foldlM_cons] at h
    cases ha : a.ApiId with
    | none => simp [ha] at h
    | some i =>
      simp only [ha, Option.some_bind, Option.bind_eq_bind] at h
      have := ih _ h
      simpa [ha] using this

theorem selectRestPage_isSome (apiAllStages : List String) (apiWithStage : StageMap)
    (exclude : Bool) (items : List RestApi) (m0 : StageMap)
    (h : ∀ restApi ∈ items, restApi.Id ≠ none) :
    ∃ m, selectRestPage apiAllStages apiWithStage exclude m0 items = some m := by
  induction items generalizing m0 with
  | nil => exact ⟨m0, by simp [selectRestPage]⟩
  | cons a items ih =>
    unfold selectRestPage
    rw [List.foldlM_cons]
    cases ha : a.Id with
    | none => exact absurd ha (h a (List.mem_cons_self _ _))
    | some i =>
      simp only [Option.some_bind, Option.bind_eq_bind]
      exact ih _ (fun r hr => h r (List.mem_cons_of_mem _ hr))

theorem selectV2Items_isSome (apiAllStages : List String) (apiWithStage : StageMap)
    (exclude : Bool) (items : List Api) (m0 : StageMap)
    (h : ∀ httpApi ∈ items, httpApi.ApiId ≠ none) :
    ∃ m, selectV2Items apiAllStages apiWithStage exclude m0 items = some m := by
  induction items generalizing m0 with
  | nil => exact ⟨m0, by simp [selectV2Items]⟩
  | cons a items ih =>
    unfold selectV2Items
    rw [List.foldlM_cons]
    cases ha : a.ApiId with
    | none => exact absurd ha (h a (List.mem_cons_self _ _))
    | some i =>
      simp only [Option.some_bind, Option.bind_eq_bind]
      exact ih _ (fun r hr => h r (List.mem_cons_of_mem _ hr))

theorem restPages_eq (apiAllStages : List String) (apiWithStage : StageMap) (exclude : Bool)
    (pages : List (Answer (List RestApi))) (acc r : Diagnostics × StageMap)
    (h : pages.foldlM (restPageStep apiAllStages apiWithStage exclude) acc = some r) :
    r.2 = ((pages.map (fun page => restItemIds (page.res.getD []))).flatten).foldl
      (selectStages apiAllStages apiWithStage exclude) acc.2 := by
  induction pages generalizing acc with
  | nil =>
    simp only [List.foldlM_nil, pure, Option.some.injEq] at h
    simp [← h]
  | cons page pages ih =>
    rw [List.foldlM_cons] at h
    cases hres : page.res with
    | none => simp [restPageStep, hres] at h
    | some items =>
      cases hsel : selectRestPage apiAllStages apiWithStage exclude acc.2 items with
      | none => simp [restPageStep, hres, hsel] at h
      | some m =>
        simp only [restPageStep, hres, hsel, Option.some_bind, Option.bind_eq_bind] at h
        have h1 := ih _ h
        have h2 := selectRestPage_eq _ _ _ _ _ _ hsel
        simp only [h1, List.map_cons, List.flatten_cons, hres, Option.getD_some,
          List.foldl_append, h2]

theorem restPages_isSome (apiAllStages : List String) (apiWithStage : StageMap) (exclude : Bool)
    (pages : List (Answer (List RestApi))) (acc : Diagnostics × StageMap)
    (h : ∀ page ∈ pages, ∃ items, page.res = some items ∧ ∀ restApi ∈ items, restApi.Id ≠ none) :
    ∃ r, pages.foldlM (restPageStep apiAllStages apiWithStage exclude) acc = some r := by
  induction pages generalizing acc with
  | nil => exact ⟨acc, by simp⟩
  | cons page pages ih =>
    rw [List.foldlM_cons]
    obtain ⟨items, hres, hids⟩ := h page (List.mem_cons_self _ _)
    obtain ⟨m, hm⟩ := selectRestPage_isSome apiAllStages apiWithStage exclude items acc.2 hids
    simp only [restPageStep, hres, hm, Option.some_bind, Option.bind_eq_bind]
    exact ih _ (fun p hp => h p (List.mem_cons_of_mem _ hp))

/-- The map built by the REST paginator loop is the fold of `selectStages` over the
catalog ids. -/
theorem restStageMapping_eq (conn : AwsApiGatewayProvider) (apiAllStages : List String)
    (apiWithStage : StageMap) (exclude : Bool) (r : Diagnostics × StageMap)
    (h : restStageMapping conn apiAllStages apiWithStage exclude = some r) :
    r.2 = (restCatalogIds conn).foldl (selectStages apiAllStages apiWithStage exclude) [] :=
  restPages_eq apiAllStages apiWithStage exclude conn.restApisPages ([], []) r h

/-- The map built by the HTTP catalog loop is the fold of `selectStages` over the
catalog ids. -/
theorem v2StageMapping_eq (conn : AwsApiGatewayProvider) (apiAllStages : List String)
    (apiWithStage : StageMap) (exclude : Bool) (r : Diagnostics × StageMap)
    (h : v2StageMapping conn apiAllStages apiWithStage exclude = some r) :
    r.2 = (v2CatalogIds conn).foldl (selectStages apiAllStages apiWithStage exclude) [] := by
  unfold v2StageMapping at h
  cases hres : conn.getApis.res with
  | none => simp [hres] at h
  | some items =>
    cases hsel : selectV2Items apiAllStages apiWithStage exclude [] items with
    | none => simp [hres, hsel] at h
    | some m =>
      simp only [hres, hsel, Option.some.injEq] at h
      have h2 := selectV2Items_eq _ _ _ _ _ _ hsel
      simp [← h, v2CatalogIds, hres, h2]

theorem restStageMapping_isSome (conn : AwsApiGatewayProvider) (apiAllStages : List String)
    (apiWithStage : StageMap) (exclude : Bool) (h : restCatalogOk conn) :
    ∃ r, restStageMapping conn apiAllStages apiWithStage exclude = some r :=
  restPages_isSome apiAllStages apiWithStage exclude conn.restApisPages ([], []) h

theorem v2StageMapping_isSome (conn : AwsApiGatewayProvider) (apiAllStages : List String)
    (apiWithStage : StageMap) (exclude : Bool) (h : v2CatalogOk conn) :
    ∃ r, v2StageMapping conn apiAllStages apiWithStage exclude = some r := by
  obtain ⟨items, hres, hids⟩ := h
  obtain ⟨m, hm⟩ := selectV2Items_isSome apiAllStages apiWithStage exclude items [] hids
  exact ⟨(recordError "getApis" conn.getApis.err [], m), by simp [v2StageMapping, hres, hm]⟩

/-! ## C1: whole-gateway decisions -/

/-- C1. Stage Set Calculator, whole-gateway decisions, in both families: a catalog
gateway id `g` with no specific-stage list in the intent is mapped to the empty
list (the all-stages sentinel) when `contains apiAllStages g != exclude`, and is
absent from the stage-selection map otherwise; the loops return a map whenever the
catalog holds no nil pointer. -/
theorem C1_whole_gateway_selection (conn : AwsApiGatewayProvider) (apiAllStages : List String)
    (apiWithStage : StageMap) (exclude : Bool) (g : String)
    (hg : mapGet apiWithStage g = none) :
    (restCatalogOk conn → ∃ r, restStageMapping conn apiAllStages apiWithStage exclude = some r) ∧
    (v2CatalogOk conn → ∃ r, v2StageMapping conn apiAllStages apiWithStage exclude = some r) ∧
    (∀ r, restStageMapping conn apiAllStages apiWithStage exclude = some r →
      g ∈ restCatalogIds conn →
      mapGet r.2 g = if (contains apiAllStages g != exclude) = true then some [] else none) ∧
    (∀ r, v2StageMapping conn apiAllStages apiWithStage exclude = some r →
      g ∈ v2CatalogIds conn →
      mapGet r.2 g = if (contains apiAllStages g != exclude) = true then some [] else none) := by
  refine ⟨restStageMapping_isSome conn _ _ _, v2StageMapping_isSome conn _ _ _, ?_, ?_⟩
  · intro r hr hmem
    rw [restStageMapping_eq conn _ _ _ r hr, mapGet_foldl_selectStages]
    simp [hmem, hg, mapGet]
  · intro r hr hmem
    rw [v2StageMapping_eq conn _ _ _ r hr, mapGet_foldl_selectStages]
    simp [hmem, hg, mapGet]

/-- C1 at selectors `["A"]` and catalog `{A, B}`: include mode selects `A` with the
empty list and not `B`, exclude mode selects `B` with the empty list and not `A`. -/
theorem C1_whole_gateway_selection_witness :
    mapGet (parseTokens ["A"]).apiWithStage "B" = none ∧
    (∀ r, restStageMapping catalogAB (parseTokens ["A"]).apiAllStages
        (parseTokens ["A"]).apiWithStage true = some r →
      "B" ∈ restCatalogIds catalogAB →
      mapGet r.2 "B" =
        if (contains (parseTokens ["A"]).apiAllStages "B" != true) = true then some [] else none) ∧
    restStageMapping catalogAB (parseTokens ["A"]).apiAllStages
      (parseTokens ["A"]).apiWithStage false = some ([], [("A", [])]) ∧
    restStageMapping catalogAB (parseTokens ["A"]).apiAllStages
      (parseTokens ["A"]).apiWithStage true = some ([], [("B", [])]) ∧
    v2StageMapping catalogAB (parseTokens ["A"]).apiAllStages
      (parseTokens ["A"]).apiWithStage false = some ([], [("A", [])]) ∧
    v2StageMapping catalogAB (parseTokens ["A"]).apiAllStages
      (parseTokens ["A"]).apiWithStage true = some ([], [("B", [])]) :=
  ⟨by decide,
   (C1_whole_gateway_selection catalogAB (parseTokens ["A"]).apiAllStages
      (parseTokens ["A"]).apiWithStage true "B" (by decide)).2.2.1,
   by decide, by decide, by decide, by decide⟩

/-! ## The token loop -/

theorem splitChars_length (sep : Char) (l : List Char) :
    (splitChars sep l).length = l.count sep + 1 := by
  induction l with
  | nil => simp [splitChars]
  | cons c cs ih =>
    by_cases h : c = sep
    · subst h
      simp [splitChars, ih]
    · have hne : (c == sep) = false := by simpa using h
      simp [splitChars, h, ih, List.count_cons, hne]

theorem stringsSplit_length (s : String) (sep : Char) :
    (stringsSplit s sep).length = s.data.count sep + 1 := by
  simp [stringsSplit, splitChars_length]

/-- The three shapes of one iteration of the token loop. -/
theorem parseToken_cases (st : ParseState) (elem : String) :
    (∃ id stage, stringsSplit elem '/' = [id, stage] ∧
      parseToken st elem =
        if !contains st.apiAllStages id then
          { st with apiWithStage :=
              mapSet st.apiWithStage id ((mapGet st.apiWithStage id).getD [] ++ [stage]) }
        else st) ∨
    (∃ id, stringsSplit elem '/' = [id] ∧
      parseToken st elem =
        { st with
          apiAllStages := st.apiAllStages ++ [id]
          apiWithStage :=
            if (mapGet st.apiWithStage id).isSome then mapDelete st.apiWithStage id
            else st.apiWithStage }) ∨
    ((stringsSplit elem '/').length ≠ 1 ∧ (stringsSplit elem '/').length ≠ 2 ∧
      parseToken st elem =
        { st with diagnostics :=
            st.diagnostics ++ [errorDiagnostic ("api gateway syntax is wrong for " ++ elem)] }) := by
  unfold parseToken
  rcases hsplit : stringsSplit elem '/' with _ | ⟨a, _ | ⟨b, _ | ⟨c, rest⟩⟩⟩
  · exact Or.inr (Or.inr ⟨by simp, by simp, rfl⟩)
  · exact Or.inr (Or.inl ⟨a, rfl, rfl⟩)
  · exact Or.inl ⟨a, b, rfl, rfl⟩
  · exact Or.inr (Or.inr ⟨by simp, by simp, rfl⟩)

/-- A property of the loop variables that every iteration preserves holds after the loop. -/
theorem foldl_parseToken_preserves (P : ParseState → Prop)
    (hstep : ∀ st elem, P st → P (parseToken st elem))
    (tokens : List String) (st : ParseState) (h : P st) : P (tokens.foldl parseToken st) := by
  induction tokens generalizing st with
  | nil => exact h
  | cons t tokens ih => exact ih _ (hstep st t h)

theorem parseToken_intentDisjoint (st : ParseState) (elem : String) (h : IntentDisjoint st) :
    IntentDisjoint (parseToken st elem) := by
  intro x hx
  rcases parseToken_cases st elem with ⟨id, stage, _, heq⟩ | ⟨id, _, heq⟩ | ⟨_, _, heq⟩
  · rw [heq] at hx ⊢
    by_cases hc : contains st.apiAllStages id = true
    · simp only [hc, Bool.not_true, Bool.false_eq_true, if_false] at hx ⊢
      exact h x hx
    · simp only [hc, Bool.not_false, if_true] at hx ⊢
      have hne : id ≠ x := by
        intro hid
        subst hid
        exact hc hx
      rw [mapGet_mapSet_ne _ _ _ _ hne]
      exact h x hx
  · rw [heq] at hx ⊢
    simp only [contains_append, Bool.or_eq_true] at hx
    by_cases hid : id = x
    · subst hid
      cases hm : mapGet st.apiWithStage id with
      | none => simp [hm]
      | some v => simp [hm, mapGet_mapDelete_self]
    · have hx1 : contains st.apiAllStages x = true := by
        rcases hx with hx | hx
        · exact hx
        · simp [contains, hid] at hx
      cases hm : mapGet st.apiWithStage id with
      | none => simpa [hm] using h x hx1
      | some v => simpa [hm, mapGet_mapDelete_ne _ _ _ hid] using h x hx1
  · rw [heq] at hx ⊢
    exact h x hx

theorem parseToken_stagesNonEmpty (st : ParseState) (elem : String) (h : StagesNonEmpty st) :
    StagesNonEmpty (parseToken st elem) := by
  intro x stages hx
  rcases parseToken_cases st elem with ⟨id, stage, _, heq⟩ | ⟨id, _, heq⟩ | ⟨_, _, heq⟩
  · rw [heq] at hx
    by_cases hc : contains st.apiAllStages id = true
    · simp only [hc, Bool.not_true, Bool.false_eq_true, if_false] at hx
      exact h x stages hx
    · simp only [hc, Bool.not_false, if_true] at hx
      by_cases hid : id = x
      · subst hid
        rw [mapGet_mapSet_self] at hx
        simp only [Option.some.injEq] at hx
        simp [← hx]
      · rw [mapGet_mapSet_ne _ _ _ _ hid] at hx
        exact h x stages hx
  · rw [heq] at hx
    cases hm : mapGet st.apiWithStage id with
    | none =>
      simp only [hm, Option.isSome_none, Bool.false_eq_true, if_false] at hx
      exact h x stages hx
    | some v =>
      simp only [hm, Option.isSome_some, if_true] at hx
      by_cases hid : id = x
      · subst hid
        simp [mapGet_mapDelete_self] at hx
      · rw [mapGet_mapDelete_ne _ _ _ hid] at hx
        exact h x stages hx
  · rw [heq] at hx
    exact h x stages hx

theorem parseTokens_stagesNonEmpty (tokens : List String) : StagesNonEmpty (parseTokens tokens) :=
  foldl_parseToken_preserves StagesNonEmpty parseToken_stagesNonEmpty tokens ParseState.init
    (by intro id stages h; simp [ParseState.init, mapGet] at h)

/-- C4. SelectionIntent disjointness: after the token loop has processed any prefix
of any token list, no gateway id is both a member of `apiAllStages` and a key of
`apiWithStage`. -/
theorem C4_intent_disjoint (tokens : List String) (n : Nat) (id : String) :
    ¬ (contains (parseTokens (tokens.take n)).apiAllStages id = true ∧
       (mapGet (parseTokens (tokens.take n)).apiWithStage id).isSome = true) := by
  have h : IntentDisjoint (parseTokens (tokens.take n)) :=
    foldl_parseToken_preserves IntentDisjoint parseToken_intentDisjoint _ ParseState.init
      (by intro x hx; simp [ParseState.init, contains] at hx)
  rintro ⟨h1, h2⟩
  simp [h id h1] at h2

theorem parseToken_all_mono (st : ParseState) (elem x : String)
    (h : contains st.apiAllStages x = true) :
    contains (parseToken st elem).apiAllStages x = true := by
  rcases parseToken_cases st elem with ⟨id, stage, _, heq⟩ | ⟨id, _, heq⟩ | ⟨_, _, heq⟩
  · rw [heq]
    by_cases hc : contains st.apiAllStages id = true <;> simp [hc, h]
  · rw [heq]
    simp [contains_append, h]
  · rw [heq]
    exact h

theorem parseToken_whole (st : ParseState) (elem x : String)
    (h : stringsSplit elem '/' = [x]) :
    contains (parseToken st elem).apiAllStages x = true := by
  simp [parseToken, h, contains_append, contains]

theorem parseToken_specific (st : ParseState) (elem y : String)
    (hsplit : stringsSplit elem '/' ≠ [y]) (hy : contains st.apiAllStages y = false) :
    contains (parseToken st elem).apiAllStages y = false ∧
    (mapGet (parseToken st elem).apiWithStage y).getD [] =
      (mapGet st.apiWithStage y).getD [] ++ (stageOfToken y elem).toList := by
  rcases parseToken_cases st elem with ⟨id, stage, hs, heq⟩ | ⟨id, hs, heq⟩ | ⟨h1, h2, heq⟩
  · rw [heq]
    by_cases hc : contains st.apiAllStages id = true
    · have hne : id ≠ y := by
        intro hid
        subst hid
        simp [hy] at hc
      simp [hc, hy, stageOfToken, hs, hne]
    · simp only [hc, Bool.not_false, if_true]
      refine ⟨hy, ?_⟩
      by_cases hid : id = y
      · subst hid
        simp [mapGet_mapSet_self, stageOfToken, hs]
      · simp [mapGet_mapSet_ne _ _ _ _ hid, stageOfToken, hs, hid]
  · rw [heq]
    have hne : id ≠ y := by
      intro hid
      subst hid
      exact hsplit hs
    refine ⟨by simp [contains_append, hy, contains, hne], ?_⟩
    cases hm : mapGet st.apiWithStage id with
    | none => simp [stageOfToken, hs]
    | some v => simp [mapGet_mapDelete_ne _ _ _ hne, stageOfToken, hs]
  · rw [heq]
    refine ⟨hy, ?_⟩
    have : stageOfToken y elem = none := by
      unfold stageOfToken
      rcases hsp : stringsSplit elem '/' with _ | ⟨a, _ | ⟨b, _ | ⟨c, rest⟩⟩⟩
      · rfl
      · rfl
      · simp [hsp] at h2
      · rfl
    simp [this]

theorem foldl_parseToken_specific (tokens : List String) (st : ParseState) (y : String)
    (hsplit : ∀ t ∈ tokens, stringsSplit t '/' ≠ [y]) (hy : contains st.apiAllStages y = false) :
    contains (tokens.foldl parseToken st).apiAllStages y = false ∧
    (mapGet (tokens.foldl parseToken st).apiWithStage y).getD [] =
      (mapGet st.apiWithStage y).getD [] ++ tokens.filterMap (stageOfToken y) := by
  induction tokens generalizing st with
  | nil => simp [hy]
  | cons t tokens ih =>
    obtain ⟨h1, h2⟩ := parseToken_specific st t y (hsplit t (List.mem_cons_self _ _)) hy
    obtain ⟨h3, h4⟩ := ih (parseToken st t) (fun u hu => hsplit u (List.mem_cons_of_mem _ hu)) h1
    refine ⟨h3, ?_⟩
    rw [List.foldl_cons, h4, h2, List.append_assoc]
    congr 1
    cases hst : stageOfToken y t <;> simp [List.filterMap_cons, hst]

theorem parseTokens_intentDisjoint (tokens : List String) : IntentDisjoint (parseTokens tokens) :=
  foldl_parseToken_preserves IntentDisjoint parseToken_intentDisjoint _ ParseState.init
    (by intro x hx; simp [ParseState.init, contains] at hx)

theorem parseTokens_whole (tokens : List String) (x : String)
    (h : ∃ t ∈ tokens, stringsSplit t '/' = [x]) :
    contains (parseTokens tokens).apiAllStages x = true ∧
    mapGet (parseTokens tokens).apiWithStage x = none := by
  obtain ⟨t, ht, hsplit⟩ := h
  have hall : contains (parseTokens tokens).apiAllStages x = true := by
    obtain ⟨pre, post, rfl⟩ := List.append_of_mem ht
    unfold parseTokens
    rw [List.foldl_append, List.foldl_cons]
    exact foldl_parseToken_preserves (fun st => contains st.apiAllStages x = true)
      (fun st elem h => parseToken_all_mono st elem x h) post _
      (parseToken_whole _ t x hsplit)
  exact ⟨hall, parseTokens_intentDisjoint tokens x hall⟩

theorem parseTokens_specific (tokens : List String) (y : String)
    (h : ∀ t ∈ tokens, stringsSplit t '/' ≠ [y]) :
    contains (parseTokens tokens).apiAllStages y = false ∧
    (mapGet (parseTokens tokens).apiWithStage y).getD [] = tokens.filterMap (stageOfToken y) := by
  have := foldl_parseToken_specific tokens ParseState.init y h (by simp [ParseState.init, contains])
  simpa [parseTokens, ParseState.init, mapGet] using this

/-- A specific-stage list of the intent is the list of the stages that the tokens name. -/
theorem parseTokens_stages (tokens : List String) (a : String) (stages : List String)
    (h : mapGet (parseTokens tokens).apiWithStage a = some stages) :
    stages = tokens.filterMap (stageOfToken a) := by
  by_cases hw : ∃ t ∈ tokens, stringsSplit t '/' = [a]
  · rw [(parseTokens_whole tokens a hw).2] at h
    exact absurd h (by simp)
  · have := (parseTokens_specific tokens a (by simpa using hw)).2
    rw [h] at this
    simpa using this

/-- C5. Last-whole-selector-wins: when the token list holds a whole-gateway token for
`X`, the parsed intent has `X` in `apiAllStages` and no entry for `X` in
`apiWithStage`; for an id `Y` with no whole-gateway token in the list, `Y` is not in
`apiAllStages` and `apiWithStage[Y]` is the list of the stage names of the tokens
`Y/s`, in order of appearance. -/
theorem C5_last_whole_selector_wins (tokens : List String) :
    (∀ X, (∃ t ∈ tokens, stringsSplit t '/' = [X]) →
      contains (parseTokens tokens).apiAllStages X = true ∧
      mapGet (parseTokens tokens).apiWithStage X = none) ∧
    (∀ Y, (∀ t ∈ tokens, stringsSplit t '/' ≠ [Y]) →
      contains (parseTokens tokens).apiAllStages Y = false ∧
      (mapGet (parseTokens tokens).apiWithStage Y).getD [] = tokens.filterMap (stageOfToken Y)) :=
  ⟨fun X h => parseTokens_whole tokens X h, fun Y h => parseTokens_specific tokens Y h⟩

/-- C5 at the tokens `X/a, Y/p, X, X/b, Y/q`. -/
theorem C5_last_whole_selector_wins_witness :
    (contains (parseTokens ["X/a", "Y/p", "X", "X/b", "Y/q"]).apiAllStages "X" = true ∧
      mapGet (parseTokens ["X/a", "Y/p", "X", "X/b", "Y/q"]).apiWithStage "X" = none) ∧
    (contains (parseTokens ["X/a", "Y/p", "X", "X/b", "Y/q"]).apiAllStages "Y" = false ∧
      (mapGet (parseTokens ["X/a", "Y/p", "X", "X/b", "Y/q"]).apiWithStage "Y").getD [] =
        ["X/a", "Y/p", "X", "X/b", "Y/q"].filterMap (stageOfToken "Y")) ∧
    ["X/a", "Y/p", "X", "X/b", "Y/q"].filterMap (stageOfToken "Y") = ["p", "q"] :=
  ⟨(C5_last_whole_selector_wins ["X/a", "Y/p", "X", "X/b", "Y/q"]).1 "X" ⟨"X", by decide, by decide⟩,
   (C5_last_whole_selector_wins ["X/a", "Y/p", "X", "X/b", "Y/q"]).2 "Y" (by decide),
   by decide⟩

theorem splitChars_no_sep (sep : Char) (l : List Char) (h : sep ∉ l) :
    splitChars sep l = [l] := by
  induction l with
  | nil => rfl
  | cons c cs ih =>
    have hc : c ≠ sep := fun e => h (by simp [e])
    have hcs : sep ∉ cs := fun e => h (List.mem_cons_of_mem _ e)
    simp [splitChars, hc, ih hcs]

/-- C6, as stated, fails: the token `A` has zero separators, and the token loop
takes it as a whole-gateway selector, with no diagnostic. -/
theorem C6_counterexample :
    "A".data.count '/' = 0 ∧
    (parseToken ParseState.init "A").diagnostics = [] ∧
    (parseToken ParseState.init "A").apiAllStages = ["A"] := by
  decide

/-- C6, amended. Every token with two or more separators makes the token loop append
exactly one malformed-token error diagnostic and leaves `apiAllStages` and
`apiWithStage` as they were; a token with zero separators is a whole-gateway
selector: no diagnostic, and the token is appended to `apiAllStages`. -/
theorem C6_malformed_tokens (st : ParseState) (elem : String) :
    (2 ≤ elem.data.count '/' →
      parseToken st elem =
        { st with diagnostics :=
            st.diagnostics ++ [errorDiagnostic ("api gateway syntax is wrong for " ++ elem)] }) ∧
    (elem.data.count '/' = 0 →
      (parseToken st elem).diagnostics = st.diagnostics ∧
      (parseToken st elem).apiAllStages = st.apiAllStages ++ [elem]) := by
  constructor
  · intro h
    have hlen := stringsSplit_length elem '/'
    rcases parseToken_cases st elem with ⟨id, stage, hs, _⟩ | ⟨id, hs, _⟩ | ⟨_, _, heq⟩
    · rw [hs] at hlen
      simp only [List.length_cons, List.length_nil] at hlen
      omega
    · rw [hs] at hlen
      simp only [List.length_cons, List.length_nil] at hlen
      omega
    · exact heq
  · intro h
    have hsplit : stringsSplit elem '/' = [elem] := by
      unfold stringsSplit
      rw [splitChars_no_sep _ _ (List.count_eq_zero.mp h)]
      rfl
    simp [parseToken, hsplit]

/-- C6, amended, at the tokens `a/b/c` and `a`. -/
theorem C6_malformed_tokens_witness :
    2 ≤ "a/b/c".data.count '/' ∧
    parseToken ParseState.init "a/b/c" =
      { ParseState.init with diagnostics :=
          ParseState.init.diagnostics ++
            [errorDiagnostic ("api gateway syntax is wrong for " ++ "a/b/c")] } ∧
    "a".data.count '/' = 0 ∧
    (parseToken ParseState.init "a").diagnostics = ParseState.init.diagnostics ∧
    (parseToken ParseState.init "a").apiAllStages = ParseState.init.apiAllStages ++ ["a"] :=
  ⟨by decide, (C6_malformed_tokens ParseState.init "a/b/c").1 (by decide), by decide,
   (C6_malformed_tokens ParseState.init "a").2 (by decide)⟩

/-! ## C7: the empty selection -/

/-- C7. With `exclude = false` and an empty selector list, `checkApiGateways` returns
one error diagnostic and an empty name list, whatever the collaborators and
`ignoreAccessLogSettings` are; with `exclude = true` the empty list goes on to the
two families with the empty intent (and a provider with empty catalogs then gives
no diagnostic at all). -/
theorem C7_empty_selection (conn : AwsApiGatewayProvider) (unmarshal : Unmarshal)
    (ignoreAccessLogSettings : Bool) :
    checkApiGateways conn unmarshal [] false ignoreAccessLogSettings =
      some ([{ severity := Severity.Error,
               summary := "api_gateways cannot be empty when action is include." }], []) ∧
    checkApiGateways conn unmarshal [] true ignoreAccessLogSettings =
      (checkRestApiGateways conn unmarshal [] [] true ignoreAccessLogSettings).bind (fun rest =>
        (checkApiGatewaysV2 conn unmarshal [] [] true ignoreAccessLogSettings).bind (fun v2 =>
          some (rest.1 ++ v2.1, removeDuplicates (rest.2 ++ v2.2)))) ∧
    checkApiGateways (restOnly [] (fun _ => [])) unmarshal [] true ignoreAccessLogSettings =
      some ([], []) := by
  refine ⟨rfl, ?_, ?_⟩
  · simp only [checkApiGateways, parseTokens, ParseState.init, List.foldl_nil]
    cases checkRestApiGateways conn unmarshal [] [] true ignoreAccessLogSettings with
    | none => rfl
    | some rest =>
      cases checkApiGatewaysV2 conn unmarshal [] [] true ignoreAccessLogSettings with
      | none => rfl
      | some v2 => simp
  · cases ignoreAccessLogSettings <;> rfl

/-! ## The stage-level filter -/

/-- The guard of the REST stage loop: a named stage is either passed over, leaving
the findings as they are, or handled as under the all-stages sentinel. -/
theorem checkRestStage_guard (unmarshal : Unmarshal) (exclude ignoreAccessLogSettings : Bool)
    (apiId : String) (apiStages : List String) (acc : Findings) (stage : Stage)
    (stageName : String) (hname : stage.StageName = some stageName) :
    checkRestStage unmarshal exclude ignoreAccessLogSettings apiId apiStages acc stage =
      if (decide (apiStages = []) || (contains apiStages stageName != exclude)) = true then
        checkRestStage unmarshal exclude ignoreAccessLogSettings apiId [] acc stage
      else some acc := by
  cases apiStages with
  | nil => simp
  | cons a rest =>
    cases hc : contains (a :: rest) stageName <;> cases exclude <;>
      simp [checkRestStage, hname, hc]

/-- The guard of the HTTP stage loop. -/
theorem checkV2Stage_guard (unmarshal : Unmarshal) (exclude : Bool)
    (apiId : String) (apiStages : List String) (acc : Findings) (stage : StageV2)
    (stageName : String) (hname : stage.StageName = some stageName) :
    checkV2Stage unmarshal exclude apiId apiStages acc stage =
      if (decide (apiStages = []) || (contains apiStages stageName != exclude)) = true then
        checkV2Stage unmarshal exclude apiId [] acc stage
      else some acc := by
  cases apiStages with
  | nil => simp
  | cons a rest =>
    cases hc : contains (a :: rest) stageName <;> cases exclude <;>
      simp [checkV2Stage, hname, hc]

theorem restStages_filter (unmarshal : Unmarshal) (exclude ignoreAccessLogSettings : Bool)
    (apiId : String) (apiStages : List String) (stages : List Stage) (acc : Findings)
    (hnames : ∀ s ∈ stages, s.StageName ≠ none) :
    stages.foldlM (checkRestStage unmarshal exclude ignoreAccessLogSettings apiId apiStages) acc =
      (stages.filter (fun s => decide (apiStages = []) ||
          (contains apiStages (s.StageName.getD "") != exclude))).foldlM
        (checkRestStage unmarshal exclude ignoreAccessLogSettings apiId []) acc := by
  induction stages generalizing acc with
  | nil => rfl
  | cons s stages ih =>
    have hrest : ∀ t ∈ stages, t.StageName ≠ none := fun t ht => hnames t (List.mem_cons_of_mem _ ht)
    cases hn : s.StageName with
    | none => exact absurd hn (hnames s (List.mem_cons_self _ _))
    | some n =>
      rw [List.foldlM_cons, checkRestStage_guard _ _ _ _ _ _ _ n hn]
      by_cases hk : (decide (apiStages = []) || (contains apiStages n != exclude)) = true
      · rw [List.filter_cons_of_pos (by simpa [hn] using hk), List.foldlM_cons, if_pos hk]
        cases checkRestStage unmarshal exclude ignoreAccessLogSettings apiId [] acc s with
        | none => rfl
        | some acc1 => exact ih acc1 hrest
      · rw [List.filter_cons_of_neg (by simpa [hn] using hk), if_neg hk]
        exact ih acc hrest

theorem v2Stages_filter (unmarshal : Unmarshal) (exclude : Bool)
    (apiId : String) (apiStages : List String) (stages : List StageV2) (acc : Findings)
    (hnames : ∀ s ∈ stages, s.StageName ≠ none) :
    stages.foldlM (checkV2Stage unmarshal exclude apiId apiStages) acc =
      (stages.filter (fun s => decide (apiStages = []) ||
          (contains apiStages (s.StageName.getD "") != exclude))).foldlM
        (checkV2Stage unmarshal exclude apiId []) acc := by
  induction stages generalizing acc with
  | nil => rfl
  | cons s stages ih =>
    have hrest : ∀ t ∈ stages, t.StageName ≠ none := fun t ht => hnames t (List.mem_cons_of_mem _ ht)
    cases hn : s.StageName with
    | none => exact absurd hn (hnames s (List.mem_cons_self _ _))
    | some n =>
      rw [List.foldlM_cons, checkV2Stage_guard _ _ _ _ _ _ n hn]
      by_cases hk : (decide (apiStages = []) || (contains apiStages n != exclude)) = true
      · rw [List.filter_cons_of_pos (by simpa [hn] using hk), List.foldlM_cons, if_pos hk]
        cases checkV2Stage unmarshal exclude apiId [] acc s with
        | none => rfl
        | some acc1 => exact ih acc1 hrest
      · rw [List.filter_cons_of_neg (by simpa [hn] using hk), if_neg hk]
        exact ih acc hrest

theorem contains_eq_decide (arr : List String) (val : String) :
    contains arr val = decide (val ∈ arr) := by
  rw [Bool.eq_iff_iff]
  simp [contains_iff]

/-! ## C2: explicit per-stage selection -/

/-- C2, as stated, fails in exclude mode: with selectors `["A/prod"]`, catalog `{A}`
and fetched stages `prod` and `dev`, the run inspects `dev` (its access-log warning
is the only finding) and passes over `prod`. -/
theorem C2_counterexample :
    checkApiGateways
        (restOnly ["A"] (fun _ => [mkStage "prod" none none, mkStage "dev" none none]))
        sampleUnmarshal ["A/prod"] true false =
      some ([warnDiagnostic "Access logs not enabled for REST API A stage dev"], []) ∧
    checkRestStage sampleUnmarshal true false "A" ["prod"] ([], []) (mkStage "prod" none none) =
      some ([], []) ∧
    checkRestStage sampleUnmarshal true false "A" ["prod"] ([], []) (mkStage "dev" none none) ≠
      some ([], []) := by
  decide

/-- C2, amended. For a gateway id `A` with a specific-stage list `L` in the intent
parsed from the tokens, `L` is the non-empty list of the stages named by the tokens
`A/s`, and both catalog loops map `A` to `L` whatever the mode is; the stage loops
then inspect exactly the fetched stages named in `L` in include mode, and exactly
the fetched stages not named in `L` in exclude mode. -/
theorem C2_specific_stage_selection (tokens : List String) (conn : AwsApiGatewayProvider)
    (unmarshal : Unmarshal) (ignoreAccessLogSettings : Bool) (A : String) (L : List String)
    (hL : mapGet (parseTokens tokens).apiWithStage A = some L) :
    L = tokens.filterMap (stageOfToken A) ∧ L ≠ [] ∧
    (∀ exclude r, restStageMapping conn (parseTokens tokens).apiAllStages
        (parseTokens tokens).apiWithStage exclude = some r →
      A ∈ restCatalogIds conn → mapGet r.2 A = some L) ∧
    (∀ exclude r, v2StageMapping conn (parseTokens tokens).apiAllStages
        (parseTokens tokens).apiWithStage exclude = some r →
      A ∈ v2CatalogIds conn → mapGet r.2 A = some L) ∧
    (∀ (acc : Findings) (stages : List Stage), (∀ s ∈ stages, s.StageName ≠ none) →
      stages.foldlM (checkRestStage unmarshal false ignoreAccessLogSettings A L) acc =
        (stages.filter (fun s => decide (s.StageName.getD "" ∈ L))).foldlM
          (checkRestStage unmarshal false ignoreAccessLogSettings A []) acc ∧
      stages.foldlM (checkRestStage unmarshal true ignoreAccessLogSettings A L) acc =
        (stages.filter (fun s => decide (s.StageName.getD "" ∉ L))).foldlM
          (checkRestStage unmarshal true ignoreAccessLogSettings A []) acc) ∧
    (∀ (acc : Findings) (stages : List StageV2), (∀ s ∈ stages, s.StageName ≠ none) →
      stages.foldlM (checkV2Stage unmarshal false A L) acc =
        (stages.filter (fun s => decide (s.StageName.getD "" ∈ L))).foldlM
          (checkV2Stage unmarshal false A []) acc ∧
      stages.foldlM (checkV2Stage unmarshal true A L) acc =
        (stages.filter (fun s => decide (s.StageName.getD "" ∉ L))).foldlM
          (checkV2Stage unmarshal true A []) acc) := by
  have hne : L ≠ [] := parseTokens_stagesNonEmpty tokens A L hL
  have hin : ∀ n : String, (decide (L = []) || (contains L n != false)) = decide (n ∈ L) := by
    intro n
    simp [hne, contains_eq_decide]
  have hex : ∀ n : String, (decide (L = []) || (contains L n != true)) = decide (n ∉ L) := by
    intro n
    simp [hne, contains_eq_decide]
  refine ⟨parseTokens_stages tokens A L hL, hne, ?_, ?_, ?_, ?_⟩
  · intro exclude r hr hmem
    rw [restStageMapping_eq conn _ _ _ r hr, mapGet_foldl_selectStages]
    simp [hmem, hL]
  · intro exclude r hr hmem
    rw [v2StageMapping_eq conn _ _ _ r hr, mapGet_foldl_selectStages]
    simp [hmem, hL]
  · intro acc stages hnames
    constructor
    · rw [restStages_filter _ _ _ _ _ stages acc hnames]
      simp only [hin]
    · rw [restStages_filter _ _ _ _ _ stages acc hnames]
      simp only [hex]
  · intro acc stages hnames
    constructor
    · rw [v2Stages_filter _ _ _ _ stages acc hnames]
      simp only [hin]
    · rw [v2Stages_filter _ _ _ _ stages acc hnames]
      simp only [hex]

/-- C2, amended, at the selectors `["A/prod"]`: the list of `A` is `[prod]`. -/
theorem C2_specific_stage_selection_witness :
    mapGet (parseTokens ["A/prod"]).apiWithStage "A" = some ["prod"] ∧
    ["prod"] = ["A/prod"].filterMap (stageOfToken "A") ∧ ["prod"] ≠ ([] : List String) :=
  ⟨by decide,
   (C2_specific_stage_selection ["A/prod"] catalogAB sampleUnmarshal false "A" ["prod"]
      (by decide)).1,
   (C2_specific_stage_selection ["A/prod"] catalogAB sampleUnmarshal false "A" ["prod"]
      (by decide)).2.1⟩

/-! ## The verifier on one stage -/

theorem checkFormatValues_complete (parsed : List (String × String))
    (h : ∀ v ∈ AccessLogFormatValues, v ∈ parsed.map Prod.snd) :
    checkFormatValues parsed = none := by
  unfold checkFormatValues
  have hnil : AccessLogFormatValues.filter (fun value =>
      !contains ((parsed.map Prod.snd).filter
        (fun value => contains AccessLogFormatValues value)) value) = [] := by
    rw [List.filter_eq_nil_iff]
    intro v hv
    have hfound : v ∈ (parsed.map Prod.snd).filter
        (fun value => contains AccessLogFormatValues value) :=
      List.mem_filter.mpr ⟨h v hv, (contains_iff _ _).mpr hv⟩
    simp [(contains_iff _ _).mpr hfound]
  simp only [hnil, List.length_nil, gt_iff_lt, lt_self_iff_false, if_false]

theorem verifyAccessLogFormat_complete (unmarshal : Unmarshal) (format : String)
    (parsed : List (String × String)) (hparsed : parseFormat unmarshal format = some parsed)
    (h : ∀ v ∈ AccessLogFormatValues, v ∈ parsed.map Prod.snd) :
    verifyAccessLogFormat unmarshal format = none := by
  simp [verifyAccessLogFormat, hparsed, checkFormatValues_complete parsed h]

/-- The access-log block on a present destination with a complete format. -/
theorem checkAccessLog_compliant (unmarshal : Unmarshal) (apiId stageName : String)
    (settings : AccessLogSettings) (arn format name : String) (acc : Findings)
    (parsed : List (String × String))
    (hdest : settings.DestinationArn = some arn) (hformat : settings.Format = some format)
    (hparsed : parseFormat unmarshal format = some parsed)
    (hvalues : ∀ v ∈ AccessLogFormatValues, v ∈ parsed.map Prod.snd)
    (harn : getAccessLogGroupNameFromArn arn = some name) :
    checkAccessLog unmarshal apiId stageName (some settings) acc = some (acc.1, acc.2 ++ [name]) := by
  simp [checkAccessLog, hdest, hformat,
    verifyAccessLogFormat_complete unmarshal format parsed hparsed hvalues, harn]

/-- C8, as stated, fails: the fully compliant REST stage `prod` of gateway `A` gives
no diagnostic and two names, the first of which is the synthetic execution-log
name. -/
theorem C8_counterexample :
    checkRestStage sampleUnmarshal false false "A" [] ([], []) compliantStage =
      some ([], ["API-Gateway-Execution-Logs_A/prod", "audit"]) ∧
    checkApiGateways (restOnly ["A"] (fun _ => [compliantStage])) sampleUnmarshal ["A"]
        false false =
      some ([], ["API-Gateway-Execution-Logs_A/prod", "audit"]) := by
  decide

/-- C8, amended. An inspected REST stage whose catch-all method settings have level
`INFO` and trace enabled, and whose access-log destination is present (a locator
from which `getAccessLogGroupNameFromArn` yields a name) with a format holding the
four required values, adds no diagnostic and exactly two names: the synthetic
execution-log name, then the access-log destination name.  An inspected HTTP stage
with such access-log settings adds no diagnostic and exactly the access-log
destination name. -/
theorem C8_compliant_stage (unmarshal : Unmarshal) (exclude : Bool) (apiId stageName : String)
    (apiStages : List String) (acc : Findings)
    (access : AccessLogSettings) (arn format name : String) (parsed : List (String × String))
    (hinspected : (apiStages.length > 0 && (contains apiStages stageName == exclude)) = false)
    (hdest : access.DestinationArn = some arn) (hformat : access.Format = some format)
    (hparsed : parseFormat unmarshal format = some parsed)
    (hvalues : ∀ v ∈ AccessLogFormatValues, v ∈ parsed.map Prod.snd)
    (harn : getAccessLogGroupNameFromArn arn = some name) :
    (∀ (stage : Stage) (settings : MethodSetting),
      stage.StageName = some stageName →
      lookupKey stage.MethodSettings "*/*" = some settings →
      settings.LoggingLevel = some "INFO" → settings.DataTraceEnabled = true →
      stage.AccessLogSettings = some access →
      checkRestStage unmarshal exclude false apiId apiStages acc stage =
        some (acc.1, acc.2 ++ [getExecutionLogGroupName apiId stageName, name])) ∧
    (∀ stage : StageV2,
      stage.StageName = some stageName → stage.AccessLogSettings = some access →
      checkV2Stage unmarshal exclude apiId apiStages acc stage =
        some (acc.1, acc.2 ++ [name])) := by
  constructor
  · intro stage settings hname hsettings hlevel htrace haccess
    have hacc := checkAccessLog_compliant unmarshal apiId stageName access arn format name
      (acc.1, acc.2 ++ [getExecutionLogGroupName apiId stageName]) parsed hdest hformat hparsed
      hvalues harn
    simp only [checkRestStage, hname, hinspected, checkExecutionLog, hsettings, hlevel, htrace,
      haccess]
    simp [hacc]
  · intro stage hname haccess
    have hacc := checkAccessLog_compliant unmarshal apiId stageName access arn format name
      acc parsed hdest hformat hparsed hvalues harn
    simp only [checkV2Stage, hname, hinspected, haccess, hacc]
    simp

/-- C8, amended, at the stages `compliantStage` and `compliantStageV2` of gateway `A`. -/
theorem C8_compliant_stage_witness :
    getAccessLogGroupNameFromArn "arn:aws:logs:eu-west-1:123456789012:log-group:audit" =
      some "audit" ∧
    checkRestStage sampleUnmarshal false false "A" [] ([], []) compliantStage =
      some ([], [] ++ [getExecutionLogGroupName "A" "prod", "audit"]) ∧
    checkV2Stage sampleUnmarshal false "A" [] ([], []) compliantStageV2 =
      some ([], [] ++ ["audit"]) :=
  ⟨by decide,
   (C8_compliant_stage sampleUnmarshal false "A" "prod" [] ([], [])
      { DestinationArn := some "arn:aws:logs:eu-west-1:123456789012:log-group:audit"
        Format := some goodFormat }
      "arn:aws:logs:eu-west-1:123456789012:log-group:audit" goodFormat "audit"
      [("m", "$context.httpMethod"), ("d", "$context.domainName"),
       ("s", "$context.status"), ("p", "$context.path")]
      (by decide) rfl rfl (by decide) (by decide) (by decide)).1 compliantStage
      { LoggingLevel := some "INFO", DataTraceEnabled := true } rfl (by decide) rfl rfl rfl,
   (C8_compliant_stage sampleUnmarshal false "A" "prod" [] ([], [])
      { DestinationArn := some "arn:aws:logs:eu-west-1:123456789012:log-group:audit"
        Format := some goodFormat }
      "arn:aws:logs:eu-west-1:123456789012:log-group:audit" goodFormat "audit"
      [("m", "$context.httpMethod"), ("d", "$context.domainName"),
       ("s", "$context.status"), ("p", "$context.path")]
      (by decide) rfl rfl (by decide) (by decide) (by decide)).2 compliantStageV2 rfl rfl⟩

/-- C9 on the code: a REST stage without method settings and without access-log
settings gets the access-log warning only, and no finding at all when access-log
settings are ignored; the execution-log block adds nothing for it. -/
theorem C9_missing_settings_findings :
    (∀ (unmarshal : Unmarshal) (exclude : Bool) (apiId stageName : String) (acc : Findings),
      checkRestStage unmarshal exclude false apiId [] acc
          { StageName := some stageName, MethodSettings := [], AccessLogSettings := none } =
        some (acc.1 ++ [warnDiagnostic
          ("Access logs not enabled for REST API " ++ apiId ++ " stage " ++ stageName)], acc.2)) ∧
    (∀ (apiId stageName : String) (acc : Findings),
      checkExecutionLog apiId stageName [] acc = some acc) ∧
    checkApiGateways (restOnly ["A"] (fun _ => [mkStage "prod" none none])) sampleUnmarshal ["A"]
        false false =
      some ([warnDiagnostic "Access logs not enabled for REST API A stage prod"], []) ∧
    checkApiGateways (restOnly ["A"] (fun _ => [mkStage "prod" none none])) sampleUnmarshal ["A"]
        false true = some ([], []) := by
  refine ⟨?_, ?_, by decide, by decide⟩
  · intro unmarshal exclude apiId stageName acc
    simp [checkRestStage, checkExecutionLog, lookupKey, checkAccessLog, accessLogsNotEnabled]
  · intro apiId stageName acc
    simp [checkExecutionLog, lookupKey]

/-- C10. Execution-logging classification of an inspected REST stage with a catch-all
method-settings entry of level `level`: with access-log settings ignored the stage
adds no diagnostic when `level` is `INFO` and trace is enabled, and otherwise exactly
one warning, chosen by `level` and trace alone, that names the gateway id and the
stage; with access-log settings not ignored the access-log block runs on these same
findings. -/
theorem C10_execution_log_classification (unmarshal : Unmarshal) (exclude : Bool)
    (apiId stageName level : String) (apiStages : List String) (acc : Findings) (stage : Stage)
    (settings : MethodSetting)
    (hname : stage.StageName = some stageName)
    (hinspected : (apiStages.length > 0 && (contains apiStages stageName == exclude)) = false)
    (hsettings : lookupKey stage.MethodSettings "*/*" = some settings)
    (hlevel : settings.LoggingLevel = some level) :
    (level = "INFO" → settings.DataTraceEnabled = true →
      checkRestStage unmarshal exclude true apiId apiStages acc stage =
        some (acc.1, acc.2 ++ [getExecutionLogGroupName apiId stageName])) ∧
    (level = "INFO" → settings.DataTraceEnabled = false →
      checkRestStage unmarshal exclude true apiId apiStages acc stage =
        some (acc.1 ++ [{ severity := Severity.Warning, summary :=
          "Full Request and Response Logs not enabled for API " ++ apiId ++ " stage " ++
            stageName }], acc.2)) ∧
    (level = "ERROR" →
      checkRestStage unmarshal exclude true apiId apiStages acc stage =
        some (acc.1 ++ [{ severity := Severity.Warning, summary :=
          "Execution logs set to Errors Only for API " ++ apiId ++ " stage " ++ stageName }],
          acc.2)) ∧
    (level ≠ "INFO" → level ≠ "ERROR" →
      checkRestStage unmarshal exclude true apiId apiStages acc stage =
        some (acc.1 ++ [{ severity := Severity.Warning, summary :=
          "Execution logs not enabled for API " ++ apiId ++ " stage " ++ stageName }], acc.2)) ∧
    checkRestStage unmarshal exclude false apiId apiStages acc stage =
      (checkRestStage unmarshal exclude true apiId apiStages acc stage).bind
        (checkAccessLog unmarshal apiId stageName stage.AccessLogSettings) := by
  refine ⟨?_, ?_, ?_, ?_, ?_⟩
  · intro hl ht
    simp [checkRestStage, hname, hinspected, checkExecutionLog, hsettings, hlevel, hl, ht]
  · intro hl ht
    simp [checkRestStage, hname, hinspected, checkExecutionLog, hsettings, hlevel, hl, ht,
      warnDiagnostic, newDiagnostic]
  · intro hl
    have hne : ¬ ("ERROR" = "INFO") := by decide
    simp [checkRestStage, hname, hinspected, checkExecutionLog, hsettings, hlevel, hl, hne,
      warnDiagnostic, newDiagnostic]
  · intro h1 h2
    simp [checkRestStage, hname, hinspected, checkExecutionLog, hsettings, hlevel, h1, h2,
      warnDiagnostic, newDiagnostic]
  · simp only [checkRestStage, hname, hinspected]
    cases checkExecutionLog apiId stageName stage.MethodSettings acc <;> simp

/-- C10 at a stage `prod` of gateway `A` whose catch-all level is the empty string. -/
theorem C10_execution_log_classification_witness :
    checkRestStage sampleUnmarshal false true "A" [] ([], [])
        (mkStage "prod" (some { LoggingLevel := some "", DataTraceEnabled := true }) none) =
      some ([] ++ [{ severity := Severity.Warning, summary :=
        "Execution logs not enabled for API " ++ "A" ++ " stage " ++ "prod" }], []) :=
  (C10_execution_log_classification sampleUnmarshal false "A" "prod" "" [] ([], [])
    (mkStage "prod" (some { LoggingLevel := some "", DataTraceEnabled := true }) none)
    { LoggingLevel := some "", DataTraceEnabled := true } rfl (by decide) (by decide) rfl).2.2.2.1
    (by decide) (by decide)

/-! ## C11: the access-log block -/

/-- C11. Access-logging branch of both families, access-log settings not ignored: an
inspected stage runs the access-log block (in the REST family after the
execution-log block), and the block has three outcomes: with the destination absent,
exactly one warning that access logs are not enabled and no name; with the
destination present and a diagnostic `d` from `verifyAccessLogFormat`, exactly one
diagnostic with the severity of `d` and the message of `d` followed by the gateway id
and the stage name, and no name; with the destination present and no diagnostic from
`verifyAccessLogFormat`, no diagnostic and exactly the name
`getAccessLogGroupNameFromArn destination`. -/
theorem C11_access_log_outcomes (unmarshal : Unmarshal) (exclude : Bool)
    (apiId stageName : String) (apiStages : List String)
    (hinspected : (apiStages.length > 0 && (contains apiStages stageName == exclude)) = false) :
    (∀ (stage : StageV2) (acc : Findings), stage.StageName = some stageName →
      checkV2Stage unmarshal exclude apiId apiStages acc stage =
        checkAccessLog unmarshal apiId stageName stage.AccessLogSettings acc) ∧
    (∀ (stage : Stage) (acc : Findings), stage.StageName = some stageName →
      checkRestStage unmarshal exclude false apiId apiStages acc stage =
        (checkExecutionLog apiId stageName stage.MethodSettings acc).bind
          (checkAccessLog unmarshal apiId stageName stage.AccessLogSettings)) ∧
    (∀ (settings : Option AccessLogSettings) (acc : Findings),
      (settings = none ∨ ∃ s, settings = some s ∧ s.DestinationArn = none) →
      checkAccessLog unmarshal apiId stageName settings acc =
        some (acc.1 ++ [{ severity := Severity.Warning, summary :=
          "Access logs not enabled for REST API " ++ apiId ++ " stage " ++ stageName }], acc.2)) ∧
    (∀ (s : AccessLogSettings) (arn format : String) (d : Diagnostic) (acc : Findings),
      s.DestinationArn = some arn → s.Format = some format →
      verifyAccessLogFormat unmarshal format = some d →
      checkAccessLog unmarshal apiId stageName (some s) acc =
        some (acc.1 ++ [{ severity := d.severity, summary :=
          d.summary ++ " for API " ++ apiId ++ " stage " ++ stageName }], acc.2)) ∧
    (∀ (s : AccessLogSettings) (arn format : String) (acc : Findings),
      s.DestinationArn = some arn → s.Format = some format →
      verifyAccessLogFormat unmarshal format = none →
      checkAccessLog unmarshal apiId stageName (some s) acc =
        (getAccessLogGroupNameFromArn arn).map (fun name => (acc.1, acc.2 ++ [name]))) := by
  refine ⟨?_, ?_, ?_, ?_, ?_⟩
  · intro stage acc hname
    simp [checkV2Stage, hname, hinspected]
  · intro stage acc hname
    simp only [checkRestStage, hname, hinspected]
    cases checkExecutionLog apiId stageName stage.MethodSettings acc <;> simp
  · rintro settings acc (h | ⟨s, h, hdest⟩)
    · simp [h, checkAccessLog, accessLogsNotEnabled, warnDiagnostic, newDiagnostic]
    · simp [h, hdest, checkAccessLog, accessLogsNotEnabled, warnDiagnostic, newDiagnostic]
  · intro s arn format d acc hdest hformat hverify
    simp [checkAccessLog, hdest, hformat, hverify]
  · intro s arn format acc hdest hformat hverify
    simp only [checkAccessLog, hdest, hformat, hverify]
    cases getAccessLogGroupNameFromArn arn <;> rfl

/-- C11 at the HTTP stage `compliantStageV2` of gateway `A`, with a parser that
accepts no text: the one diagnostic is the warning of `verifyAccessLogFormat` with the
gateway id and the stage name appended. -/
theorem C11_access_log_outcomes_witness :
    checkV2Stage (fun _ => none) false "A" [] ([], []) compliantStageV2 =
      checkAccessLog (fun _ => none) "A" "prod" compliantStageV2.AccessLogSettings ([], []) ∧
    checkAccessLog (fun _ => none) "A" "prod" compliantStageV2.AccessLogSettings ([], []) =
      some ([{ severity := Severity.Warning,
               summary := "Access log format is not JSON parsable for API A stage prod" }], []) :=
  ⟨(C11_access_log_outcomes (fun _ => none) false "A" "prod" [] (by decide)).1
      compliantStageV2 ([], []) rfl,
   (C11_access_log_outcomes (fun _ => none) false "A" "prod" [] (by decide)).2.2.2.1
      { DestinationArn := some "arn:aws:logs:eu-west-1:123456789012:log-group:audit"
        Format := some goodFormat }
      "arn:aws:logs:eu-west-1:123456789012:log-group:audit" goodFormat
      (warnDiagnostic "Access log format is not JSON parsable") ([], []) rfl rfl rfl⟩

/-! ## C13, C14: the format checker -/

/-- The missing values computed by `checkFormatValues` are the required values that
are not values of the parsed object. -/
theorem missingValues_eq (parsed : List (String × String)) :
    AccessLogFormatValues.filter (fun value =>
        !contains ((parsed.map Prod.snd).filter
          (fun value => contains AccessLogFormatValues value)) value) =
      AccessLogFormatValues.filter (fun value => decide (value ∉ parsed.map Prod.snd)) := by
  apply List.filter_congr
  intro v hv
  have hreq : contains AccessLogFormatValues v = true := (contains_iff _ _).mpr hv
  rw [contains_eq_decide]
  by_cases hin : v ∈ parsed.map Prod.snd
  · have : v ∈ (parsed.map Prod.snd).filter (fun value => contains AccessLogFormatValues value) :=
      List.mem_filter.mpr ⟨hin, hreq⟩
    simp [this, hin]
  · have : v ∉ (parsed.map Prod.snd).filter (fun value => contains AccessLogFormatValues value) :=
      fun h => hin (List.mem_filter.mp h).1
    simp [this, hin]

theorem checkFormatValues_eq (parsed : List (String × String)) :
    checkFormatValues parsed =
      if AccessLogFormatValues.filter (fun value => decide (value ∉ parsed.map Prod.snd)) = [] then
        none
      else
        some (warnDiagnostic ("Access log format is missing required values " ++
          formatSlice
            (AccessLogFormatValues.filter (fun value => decide (value ∉ parsed.map Prod.snd))))) := by
  unfold checkFormatValues
  simp only [missingValues_eq]
  cases h : AccessLogFormatValues.filter (fun value => decide (value ∉ parsed.map Prod.snd)) with
  | nil => simp
  | cons a rest => simp

/-- C13. Required-field check of the format checker: when the format parses, directly
or after brace-wrapping, to the object `parsed`, `verifyAccessLogFormat` returns no
diagnostic exactly when each of the four required values is a value of `parsed`, and
otherwise returns one warning that lists the required values that are not values of
`parsed`, in the order of `AccessLogFormatValues`. -/
theorem C13_required_values (unmarshal : Unmarshal) (format : String)
    (parsed : List (String × String)) (hparsed : parseFormat unmarshal format = some parsed) :
    (verifyAccessLogFormat unmarshal format = none ↔
      ∀ v ∈ AccessLogFormatValues, v ∈ parsed.map Prod.snd) ∧
    (¬ (∀ v ∈ AccessLogFormatValues, v ∈ parsed.map Prod.snd) →
      verifyAccessLogFormat unmarshal format =
        some { severity := Severity.Warning, summary :=
          "Access log format is missing required values " ++
            formatSlice (AccessLogFormatValues.filter
              (fun value => decide (value ∉ parsed.map Prod.snd))) }) ∧
    AccessLogFormatValues =
      ["$context.httpMethod", "$context.domainName", "$context.status", "$context.path"] := by
  have hnil : AccessLogFormatValues.filter (fun value => decide (value ∉ parsed.map Prod.snd)) = [] ↔
      ∀ v ∈ AccessLogFormatValues, v ∈ parsed.map Prod.snd := by
    rw [List.filter_eq_nil_iff]
    constructor
    · intro h v hv
      have := h v hv
      simpa using this
    · intro h v hv
      simpa using h v hv
  have hver : verifyAccessLogFormat unmarshal format = checkFormatValues parsed := by
    simp [verifyAccessLogFormat, hparsed]
  rw [hver, checkFormatValues_eq]
  refine ⟨?_, ?_, rfl⟩
  · by_cases h : AccessLogFormatValues.filter
        (fun value => decide (value ∉ parsed.map Prod.snd)) = []
    · simp only [h, if_true, true_iff]
      exact hnil.mp h
    · simp only [h, if_false]
      constructor
      · intro hc
        exact absurd hc (by simp)
      · intro hall
        exact absurd (hnil.mpr hall) h
  · intro hnot
    have h : ¬ AccessLogFormatValues.filter
        (fun value => decide (value ∉ parsed.map Prod.snd)) = [] := fun h => hnot (hnil.mp h)
    simp only [h, if_false]
    rfl

/-- C13 at the format `some`, parsed by `bracedUnmarshal` to an object with the method
and the domain name only: the warning lists the status and the path. -/
theorem C13_required_values_witness :
    parseFormat bracedUnmarshal "some" =
      some [("m", "$context.httpMethod"), ("d", "$context.domainName"), ("x", "other")] ∧
    verifyAccessLogFormat bracedUnmarshal "some" =
      some { severity := Severity.Warning, summary :=
        "Access log format is missing required values " ++
          formatSlice (AccessLogFormatValues.filter (fun value => decide (value ∉
            [("m", "$context.httpMethod"), ("d", "$context.domainName"),
             ("x", "other")].map Prod.snd))) } ∧
    formatSlice (AccessLogFormatValues.filter (fun value => decide (value ∉
        [("m", "$context.httpMethod"), ("d", "$context.domainName"),
         ("x", "other")].map Prod.snd))) = "[$context.status $context.path]" :=
  ⟨by decide,
   (C13_required_values bracedUnmarshal "some"
      [("m", "$context.httpMethod"), ("d", "$context.domainName"), ("x", "other")]
      (by decide)).2.1 (by decide),
   by decide⟩

/-- C14. Brace fallback of the format checker: for a content string that is not
itself parsable and whose brace-wrapping parses, `verifyAccessLogFormat` judges the
content and its brace-wrapping alike; for a string such that neither it nor its
brace-wrapping parses, the result is the one warning that the format is not JSON
parsable. -/
theorem C14_brace_fallback (unmarshal : Unmarshal) :
    (∀ (c : String) (m : List (String × String)),
      unmarshal c = none → unmarshal ("\x7b" ++ c ++ "\x7d") = some m →
      verifyAccessLogFormat unmarshal c =
        verifyAccessLogFormat unmarshal ("\x7b" ++ c ++ "\x7d") ∧
      verifyAccessLogFormat unmarshal c = checkFormatValues m) ∧
    (∀ s : String, unmarshal s = none → unmarshal ("\x7b" ++ s ++ "\x7d") = none →
      verifyAccessLogFormat unmarshal s =
        some { severity := Severity.Warning,
               summary := "Access log format is not JSON parsable" }) := by
  constructor
  · intro c m hc hbraced
    simp [verifyAccessLogFormat, parseFormat, hc, hbraced]
  · intro s hs hbraced
    simp [verifyAccessLogFormat, parseFormat, hs, hbraced, warnDiagnostic, newDiagnostic]

/-- C14 at the content `good`, which only parses between braces, and at the text
`junk`, which does not parse either way. -/
theorem C14_brace_fallback_witness :
    verifyAccessLogFormat bracedUnmarshal goodFormat =
      verifyAccessLogFormat bracedUnmarshal ("\x7b" ++ goodFormat ++ "\x7d") ∧
    verifyAccessLogFormat bracedUnmarshal goodFormat = none ∧
    verifyAccessLogFormat bracedUnmarshal "junk" =
      some { severity := Severity.Warning,
             summary := "Access log format is not JSON parsable" } :=
  ⟨((C14_brace_fallback bracedUnmarshal).1 goodFormat
      [("m", "$context.httpMethod"), ("d", "$context.domainName"),
       ("s", "$context.status"), ("p", "$context.path")] (by decide) (by decide)).1,
   by decide,
   (C14_brace_fallback bracedUnmarshal).2 "junk" (by decide) (by decide)⟩

/-! ## C15, C20: the destination name -/

theorem intercalate_go_data (acc sep : String) (parts : List String) :
    (String.intercalate.go acc sep parts).data =
      acc.data ++ (parts.map (fun a => sep.data ++ a.data)).flatten := by
  induction parts generalizing acc with
  | nil => simp [String.intercalate.go]
  | cons a parts ih => simp [String.intercalate.go, ih, String.data_append]

theorem joinChars_cons (sep a : List Char) (rest : List (List Char)) :
    joinChars sep (a :: rest) = a ++ (rest.map (fun b => sep ++ b)).flatten := by
  induction rest generalizing a with
  | nil => simp [joinChars]
  | cons b rest ih => simp [joinChars, ih]

theorem stringsJoin_data (parts : List String) (sep : String) :
    (stringsJoin parts sep).data = joinChars sep.data (parts.map String.data) := by
  cases parts with
  | nil => simp [stringsJoin, String.intercalate, joinChars]
  | cons a parts =>
    simp [stringsJoin, String.intercalate, intercalate_go_data, joinChars_cons, List.map_map,
      Function.comp_def]

theorem splitChars_ne_nil (sep : Char) (l : List Char) : splitChars sep l ≠ [] := by
  intro h
  have := splitChars_length sep l
  rw [h] at this
  simp at this

theorem joinChars_splitChars (sep : Char) (l : List Char) :
    joinChars [sep] (splitChars sep l) = l := by
  induction l with
  | nil => simp [splitChars, joinChars]
  | cons c cs ih =>
    rcases hsp : splitChars sep cs with _ | ⟨h, t⟩
    · exact absurd hsp (splitChars_ne_nil sep cs)
    · rw [hsp, joinChars_cons] at ih
      by_cases hc : c = sep
      · subst hc
        simp only [splitChars, if_true, hsp, joinChars_cons, List.map_cons, List.flatten_cons,
          List.nil_append, List.singleton_append, List.cons_append]
        rw [← ih]
        rfl
      · simp only [splitChars, hc, if_false, hsp, List.headD_cons, List.tail_cons, joinChars_cons,
          List.cons_append]
        rw [← ih]
        rfl

theorem joinChars_append (sep : List Char) (xs ys : List (List Char))
    (hx : xs ≠ []) (hy : ys ≠ []) :
    joinChars sep (xs ++ ys) = joinChars sep xs ++ sep ++ joinChars sep ys := by
  rcases xs with _ | ⟨a, xr⟩
  · exact absurd rfl hx
  · rcases ys with _ | ⟨b, yr⟩
    · exact absurd rfl hy
    · simp [joinChars_cons, List.append_assoc]

theorem stringsSplit_data (s : String) (sep : Char) :
    (stringsSplit s sep).map String.data = splitChars sep s.data := by
  simp [stringsSplit, List.map_map, Function.comp_def]

/-- Joining the split of a string with the separator gives the string back. -/
theorem stringsJoin_take_drop (s : String) (sep : Char) (n : Nat)
    (h1 : 0 < n) (h2 : n < (stringsSplit s sep).length) :
    stringsJoin ((stringsSplit s sep).take n) (String.singleton sep) ++ String.singleton sep ++
      stringsJoin ((stringsSplit s sep).drop n) (String.singleton sep) = s := by
  apply String.ext
  have hlen : (splitChars sep s.data).length = (stringsSplit s sep).length := by
    rw [← stringsSplit_data, List.length_map]
  have hsep : (String.singleton sep).data = [sep] := rfl
  simp only [String.data_append, stringsJoin_data, List.map_take, List.map_drop,
    stringsSplit_data, hsep]
  rw [← joinChars_append]
  · rw [List.take_append_drop, joinChars_splitChars]
  · intro h
    have := congrArg List.length h
    simp only [List.length_take, List.length_nil] at this
    omega
  · intro h
    have := congrArg List.length h
    simp only [List.length_drop, List.length_nil] at this
    omega

/-- C15. Destination-name extraction: for a locator with at least seven
colon-separated fields, `getAccessLogGroupNameFromArn` returns the fields from the
seventh onward rejoined with colons, and the first six fields, a colon and the
result make up the locator again. -/
theorem C15_destination_name (arn : String) (h : 7 ≤ (stringsSplit arn ':').length) :
    getAccessLogGroupNameFromArn arn =
      some (stringsJoin ((stringsSplit arn ':').drop 6) ":") ∧
    stringsJoin ((stringsSplit arn ':').take 6) ":" ++ ":" ++
      stringsJoin ((stringsSplit arn ':').drop 6) ":" = arn := by
  constructor
  · have h6 : 6 ≤ (stringsSplit arn ':').length := by omega
    simp [getAccessLogGroupNameFromArn, h6]
  · exact stringsJoin_take_drop arn ':' 6 (by omega) (by omega)

/-- C15 at a locator whose name holds a colon. -/
theorem C15_destination_name_witness :
    7 ≤ (stringsSplit "arn:aws:logs:eu-west-1:123456789012:log-group:audit:one" ':').length ∧
    getAccessLogGroupNameFromArn "arn:aws:logs:eu-west-1:123456789012:log-group:audit:one" =
      some (stringsJoin
        ((stringsSplit "arn:aws:logs:eu-west-1:123456789012:log-group:audit:one" ':').drop 6)
        ":") ∧
    stringsJoin
        ((stringsSplit "arn:aws:logs:eu-west-1:123456789012:log-group:audit:one" ':').drop 6)
        ":" = "audit:one" ∧
    stringsJoin
        ((stringsSplit "arn:aws:logs:eu-west-1:123456789012:log-group:audit:one" ':').take 6)
        ":" = "arn:aws:logs:eu-west-1:123456789012:log-group" :=
  ⟨by decide,
   (C15_destination_name "arn:aws:logs:eu-west-1:123456789012:log-group:audit:one"
      (by decide)).1,
   by decide, by decide⟩

/-- A loop in which one element makes the body fail, fails. -/
theorem foldlM_none_of_mem {α β : Type} (f : β → α → Option β) (l : List α) (a : α)
    (hmem : a ∈ l) (hfail : ∀ acc, f acc a = none) (acc : β) : l.foldlM f acc = none := by
  induction l generalizing acc with
  | nil => simp at hmem
  | cons x xs ih =>
    rw [List.foldlM_cons]
    cases hx : f acc x with
    | none => rfl
    | some acc1 =>
      rcases List.mem_cons.mp hmem with h | h
      · subst h
        rw [hfail acc] at hx
        exact absurd hx (by simp)
      · exact ih h acc1

/-- C20. Totality of the destination-name extraction: `getAccessLogGroupNameFromArn`
returns a name exactly when the locator holds at least five colons; with exactly
five the name is empty; with fewer than five the slice is out of range, and then a
named, inspected stage with this destination and a format that
`verifyAccessLogFormat` accepts makes the access-log block, the stage body and the
stage loop of either family fail. -/
theorem C20_extraction_totality (arn : String) :
    ((getAccessLogGroupNameFromArn arn).isSome = true ↔ 5 ≤ arn.data.count ':') ∧
    (arn.data.count ':' = 5 → getAccessLogGroupNameFromArn arn = some "") ∧
    (arn.data.count ':' < 5 →
      getAccessLogGroupNameFromArn arn = none ∧
      ∀ (unmarshal : Unmarshal) (exclude : Bool) (apiId stageName format : String)
        (apiStages : List String) (access : AccessLogSettings),
        access.DestinationArn = some arn → access.Format = some format →
        verifyAccessLogFormat unmarshal format = none →
        (apiStages.length > 0 && (contains apiStages stageName == exclude)) = false →
        (∀ acc, checkAccessLog unmarshal apiId stageName (some access) acc = none) ∧
        (∀ (stage : StageV2) (stages : List StageV2) (acc : Findings),
          stage.StageName = some stageName → stage.AccessLogSettings = some access →
          stage ∈ stages →
          checkV2Stage unmarshal exclude apiId apiStages acc stage = none ∧
          stages.foldlM (checkV2Stage unmarshal exclude apiId apiStages) acc = none) ∧
        (∀ (stage : Stage) (stages : List Stage) (acc : Findings),
          stage.StageName = some stageName → stage.AccessLogSettings = some access →
          stage ∈ stages →
          checkRestStage unmarshal exclude false apiId apiStages acc stage = none ∧
          stages.foldlM (checkRestStage unmarshal exclude false apiId apiStages) acc = none)) := by
  have hlen := stringsSplit_length arn ':'
  refine ⟨?_, ?_, ?_⟩
  · unfold getAccessLogGroupNameFromArn
    by_cases h : 6 ≤ (stringsSplit arn ':').length
    · simp only [h, if_true, Option.isSome_some, true_iff]
      omega
    · simp only [h, if_false, Option.isSome_none, Bool.false_eq_true, false_iff]
      omega
  · intro h5
    have h6 : (stringsSplit arn ':').length = 6 := by omega
    have hdrop : (stringsSplit arn ':').drop 6 = [] := by
      apply List.drop_eq_nil_of_le
      omega
    simp [getAccessLogGroupNameFromArn, h6, hdrop, stringsJoin, String.intercalate]
  · intro hlt
    have hnone : getAccessLogGroupNameFromArn arn = none := by
      have h : ¬ 6 ≤ (stringsSplit arn ':').length := by omega
      simp [getAccessLogGroupNameFromArn, h]
    refine ⟨hnone, ?_⟩
    intro unmarshal exclude apiId stageName format apiStages access hdest hformat hverify hinsp
    have hblock : ∀ acc, checkAccessLog unmarshal apiId stageName (some access) acc = none := by
      intro acc
      simp [checkAccessLog, hdest, hformat, hverify, hnone]
    refine ⟨hblock, ?_, ?_⟩
    · intro stage stages acc hname haccess hmem
      have hstage : ∀ acc, checkV2Stage unmarshal exclude apiId apiStages acc stage = none := by
        intro acc
        simp only [checkV2Stage, hname, hinsp, haccess]
        simpa using hblock acc
      exact ⟨hstage acc, foldlM_none_of_mem _ stages stage hmem hstage acc⟩
    · intro stage stages acc hname haccess hmem
      have hstage : ∀ acc, checkRestStage unmarshal exclude false apiId apiStages acc stage = none := by
        intro acc
        simp only [checkRestStage, hname, hinsp, haccess]
        cases checkExecutionLog apiId stageName stage.MethodSettings acc with
        | none => simp
        | some acc1 => simpa using hblock acc1
      exact ⟨hstage acc, foldlM_none_of_mem _ stages stage hmem hstage acc⟩

/-- C20 at the locators `a:b:c:d:e:f` (five colons) and `arn:aws:logs` (two colons),
and at a run over an HTTP gateway whose stage has the second one as destination. -/
theorem C20_extraction_totality_witness :
    "a:b:c:d:e:f".data.count ':' = 5 ∧
    getAccessLogGroupNameFromArn "a:b:c:d:e:f" = some "" ∧
    "arn:aws:logs".data.count ':' < 5 ∧
    getAccessLogGroupNameFromArn "arn:aws:logs" = none ∧
    checkApiGateways (httpOnly ["A"] (fun _ => [shortArnStageV2])) sampleUnmarshal ["A"]
      false false = none :=
  ⟨by decide, (C20_extraction_totality "a:b:c:d:e:f").2.1 (by decide), by decide,
   ((C20_extraction_totality "arn:aws:logs").2.2 (by decide)).1, by decide⟩

/-! ## C16: deduplication of the names -/

theorem removeDuplicates_foldl (arr chkMap : List String) (h : chkMap.Nodup) :
    (arr.foldl (fun chkMap a => if contains chkMap a then chkMap else chkMap ++ [a]) chkMap).Nodup ∧
    ∀ x, x ∈ arr.foldl (fun chkMap a => if contains chkMap a then chkMap else chkMap ++ [a]) chkMap ↔
      x ∈ chkMap ∨ x ∈ arr := by
  induction arr generalizing chkMap with
  | nil => simp [h]
  | cons a arr ih =>
    rw [List.foldl_cons]
    by_cases hc : contains chkMap a = true
    · have hmem : a ∈ chkMap := (contains_iff _ _).mp hc
      obtain ⟨h1, h2⟩ := ih chkMap h
      simp only [hc, if_true]
      refine ⟨h1, fun x => ?_⟩
      rw [h2 x, List.mem_cons]
      constructor
      · rintro (hx | hx)
        · exact Or.inl hx
        · exact Or.inr (Or.inr hx)
      · rintro (hx | hx | hx)
        · exact Or.inl hx
        · exact Or.inl (hx ▸ hmem)
        · exact Or.inr hx
    · have hnot : a ∉ chkMap := fun hm => hc ((contains_iff _ _).mpr hm)
      have hnodup : (chkMap ++ [a]).Nodup := by
        rw [List.nodup_append]
        refine ⟨h, List.nodup_singleton a, ?_⟩
        intro x hx hxa
        rw [List.mem_singleton] at hxa
        exact hnot (hxa ▸ hx)
      obtain ⟨h1, h2⟩ := ih (chkMap ++ [a]) hnodup
      simp only [hc, if_false, Bool.false_eq_true]
      refine ⟨h1, fun x => ?_⟩
      rw [h2 x, List.mem_append, List.mem_singleton, List.mem_cons]
      constructor
      · rintro ((hx | hx) | hx)
        · exact Or.inl hx
        · exact Or.inr (Or.inl hx)
        · exact Or.inr (Or.inr hx)
      · rintro (hx | hx | hx)
        · exact Or.inl (Or.inl hx)
        · exact Or.inl (Or.inr hx)
        · exact Or.inr hx

/-- C16. Destination-name deduplication: `removeDuplicates arr` holds no string twice
and has the members of `arr`; hence, when both families return, the name list of
`checkApiGateways` holds no string twice and its members are the names contributed
by the REST family or by the HTTP family. -/
theorem C16_deduplication :
    (∀ arr : List String,
      (removeDuplicates arr).Nodup ∧ ∀ x, x ∈ removeDuplicates arr ↔ x ∈ arr) ∧
    (∀ (conn : AwsApiGatewayProvider) (unmarshal : Unmarshal) (apiGateways : List String)
      (exclude ignoreAccessLogSettings : Bool) (rest v2 : Findings),
      (!exclude && apiGateways.length == 0) = false →
      checkRestApiGateways conn unmarshal (parseTokens apiGateways).apiAllStages
        (parseTokens apiGateways).apiWithStage exclude ignoreAccessLogSettings = some rest →
      checkApiGatewaysV2 conn unmarshal (parseTokens apiGateways).apiAllStages
        (parseTokens apiGateways).apiWithStage exclude ignoreAccessLogSettings = some v2 →
      ∃ r, checkApiGateways conn unmarshal apiGateways exclude ignoreAccessLogSettings = some r ∧
        r.2.Nodup ∧ ∀ x, x ∈ r.2 ↔ x ∈ rest.2 ∨ x ∈ v2.2) := by
  have hdedup : ∀ arr : List String,
      (removeDuplicates arr).Nodup ∧ ∀ x, x ∈ removeDuplicates arr ↔ x ∈ arr := by
    intro arr
    obtain ⟨h1, h2⟩ := removeDuplicates_foldl arr [] List.nodup_nil
    exact ⟨h1, fun x => by simpa [removeDuplicates] using h2 x⟩
  refine ⟨hdedup, ?_⟩
  intro conn unmarshal apiGateways exclude ignoreAccessLogSettings rest v2 hlate hrest hv2
  refine ⟨((parseTokens apiGateways).diagnostics ++ rest.1 ++ v2.1,
    removeDuplicates (rest.2 ++ v2.2)), ?_, (hdedup _).1, ?_⟩
  · simp only [checkApiGateways, hlate, hrest, hv2]
    simp
  · intro x
    rw [(hdedup _).2 x, List.mem_append]

/-- C16 at the names `[b, a, b]`, and at a gateway whose two stages share the
destination `audit`. -/
theorem C16_deduplication_witness :
    removeDuplicates ["b", "a", "b"] = ["b", "a"] ∧
    (∃ r, checkApiGateways
        (restOnly ["A"] (fun _ => [compliantStage, sharedDestinationStage])) sampleUnmarshal
        ["A"] false false = some r ∧
      r.2.Nodup ∧ ∀ x, x ∈ r.2 ↔
        x ∈ (([] : Diagnostics), ["API-Gateway-Execution-Logs_A/prod", "audit", "audit"]).2 ∨
        x ∈ (([] : Diagnostics), ([] : List String)).2) ∧
    checkApiGateways
        (restOnly ["A"] (fun _ => [compliantStage, sharedDestinationStage])) sampleUnmarshal
        ["A"] false false = some ([], ["API-Gateway-Execution-Logs_A/prod", "audit"]) :=
  ⟨by decide,
   C16_deduplication.2 (restOnly ["A"] (fun _ => [compliantStage, sharedDestinationStage]))
     sampleUnmarshal ["A"] false false
     ([], ["API-Gateway-Execution-Logs_A/prod", "audit", "audit"]) ([], [])
     (by decide) (by decide) (by decide),
   by decide⟩

/-! ## C18: the keys of the stage-selection maps -/

theorem not_mem_keys_of_mapGet_none (m : StageMap) (g : String) (h : mapGet m g = none) :
    g ∉ m.map Prod.fst := by
  induction m with
  | nil => simp
  | cons p m ih =>
    obtain ⟨k, v⟩ := p
    by_cases hk : k = g
    · simp [mapGet, hk] at h
    · simp only [mapGet, hk, if_false] at h
      simp only [List.map_cons, List.mem_cons, not_or]
      exact ⟨fun e => hk e.symm, ih h⟩

theorem restPages_diagnostics (apiAllStages : List String) (apiWithStage : StageMap)
    (exclude : Bool) (pages : List (Answer (List RestApi))) (acc r : Diagnostics × StageMap)
    (h : pages.foldlM (restPageStep apiAllStages apiWithStage exclude) acc = some r) :
    r.1 = pages.foldl (fun d page => recordError "getRestApis" page.err d) acc.1 := by
  induction pages generalizing acc with
  | nil =>
    simp only [List.foldlM_nil, pure, Option.some.injEq] at h
    simp [← h]
  | cons page pages ih =>
    rw [List.foldlM_cons] at h
    cases hres : page.res with
    | none => simp [restPageStep, hres] at h
    | some items =>
      cases hsel : selectRestPage apiAllStages apiWithStage exclude acc.2 items with
      | none => simp [restPageStep, hres, hsel] at h
      | some m =>
        simp only [restPageStep, hres, hsel, Option.some_bind, Option.bind_eq_bind] at h
        simpa using ih _ h

theorem v2StageMapping_diagnostics (conn : AwsApiGatewayProvider) (apiAllStages : List String)
    (apiWithStage : StageMap) (exclude : Bool) (r : Diagnostics × StageMap)
    (h : v2StageMapping conn apiAllStages apiWithStage exclude = some r) :
    r.1 = recordError "getApis" conn.getApis.err [] := by
  unfold v2StageMapping at h
  cases hres : conn.getApis.res with
  | none => simp [hres] at h
  | some items =>
    cases hsel : selectV2Items apiAllStages apiWithStage exclude [] items with
    | none => simp [hres, hsel] at h
    | some m =>
      simp only [hres, hsel, Option.some.injEq] at h
      simp [← h]

/-- C18. StageSelection keys are in scope: in both families the catalog loop returns a
map whenever the catalog holds no nil pointer, every key of the map it returns is a
gateway id of the catalog of the family, and its diagnostics are the errors of the
catalog calls alone, whatever the selectors are. -/
theorem C18_keys_in_scope (conn : AwsApiGatewayProvider) (apiAllStages : List String)
    (apiWithStage : StageMap) (exclude : Bool) :
    (restCatalogOk conn → ∃ r, restStageMapping conn apiAllStages apiWithStage exclude = some r) ∧
    (v2CatalogOk conn → ∃ r, v2StageMapping conn apiAllStages apiWithStage exclude = some r) ∧
    (∀ r, restStageMapping conn apiAllStages apiWithStage exclude = some r →
      (∀ g, g ∈ r.2.map Prod.fst → g ∈ restCatalogIds conn) ∧
      r.1 = restCatalogDiagnostics conn) ∧
    (∀ r, v2StageMapping conn apiAllStages apiWithStage exclude = some r →
      (∀ g, g ∈ r.2.map Prod.fst → g ∈ v2CatalogIds conn) ∧
      r.1 = recordError "getApis" conn.getApis.err []) := by
  refine ⟨restStageMapping_isSome conn _ _ _, v2StageMapping_isSome conn _ _ _, ?_, ?_⟩
  · intro r hr
    refine ⟨?_, restPages_diagnostics _ _ _ _ ([], []) r hr⟩
    intro g hg
    by_contra hnot
    have hget : mapGet r.2 g = none := by
      rw [restStageMapping_eq conn _ _ _ r hr, mapGet_foldl_selectStages]
      simp [hnot, mapGet]
    exact not_mem_keys_of_mapGet_none r.2 g hget hg
  · intro r hr
    refine ⟨?_, v2StageMapping_diagnostics conn _ _ _ r hr⟩
    intro g hg
    by_contra hnot
    have hget : mapGet r.2 g = none := by
      rw [v2StageMapping_eq conn _ _ _ r hr, mapGet_foldl_selectStages]
      simp [hnot, mapGet]
    exact not_mem_keys_of_mapGet_none r.2 g hget hg

/-- C18 at the selectors `Z, A/prod, Q/x` and the catalog `A, B`: the ids `Z` and `Q`
are no keys and the loops give no diagnostic. -/
theorem C18_keys_in_scope_witness :
    restStageMapping catalogAB (parseTokens ["Z", "A/prod", "Q/x"]).apiAllStages
      (parseTokens ["Z", "A/prod", "Q/x"]).apiWithStage false = some ([], [("A", ["prod"])]) ∧
    ((∀ g, g ∈ (([] : Diagnostics), ([("A", ["prod"])] : StageMap)).2.map Prod.fst →
        g ∈ restCatalogIds catalogAB) ∧
      (([] : Diagnostics), ([("A", ["prod"])] : StageMap)).1 = restCatalogDiagnostics catalogAB) ∧
    v2StageMapping catalogAB (parseTokens ["Z", "A/prod", "Q/x"]).apiAllStages
      (parseTokens ["Z", "A/prod", "Q/x"]).apiWithStage true = some ([], [("A", ["prod"]), ("B", [])]) :=
  ⟨by decide,
   (C18_keys_in_scope catalogAB (parseTokens ["Z", "A/prod", "Q/x"]).apiAllStages
      (parseTokens ["Z", "A/prod", "Q/x"]).apiWithStage false).2.2.1
      ([], [("A", ["prod"])]) (by decide),
   by decide⟩

/-! ## C19: malformed tokens do not disturb the parse -/

theorem stringsSplit_length_pos (s : String) (sep : Char) : 1 ≤ (stringsSplit s sep).length := by
  rw [stringsSplit_length]
  omega

theorem parseToken_malformed (st : ParseState) (elem : String) (h : isMalformed elem = true) :
    parseToken st elem = { st with diagnostics := st.diagnostics ++ [malformedDiagnostic elem] } := by
  have h3 : 3 ≤ (stringsSplit elem '/').length := by simpa [isMalformed] using h
  rcases parseToken_cases st elem with ⟨id, stage, hs, _⟩ | ⟨id, hs, _⟩ | ⟨_, _, heq⟩
  · rw [hs] at h3
    simp at h3
  · rw [hs] at h3
    simp at h3
  · exact heq

theorem parseToken_wellFormed (st : ParseState) (elem : String) (h : isMalformed elem = false) :
    (parseToken st elem).diagnostics = st.diagnostics := by
  have h3 : ¬ 3 ≤ (stringsSplit elem '/').length := by simpa [isMalformed] using h
  have h1 := stringsSplit_length_pos elem '/'
  rcases parseToken_cases st elem with ⟨id, stage, _, heq⟩ | ⟨id, _, heq⟩ | ⟨hn1, hn2, _⟩
  · rw [heq]
    by_cases hc : contains st.apiAllStages id = true <;> simp [hc]
  · rw [heq]
  · omega

/-- The intent after one iteration depends on the intent before it alone. -/
theorem parseToken_intent (st st1 : ParseState) (elem : String)
    (hall : st.apiAllStages = st1.apiAllStages) (hwith : st.apiWithStage = st1.apiWithStage) :
    (parseToken st elem).apiAllStages = (parseToken st1 elem).apiAllStages ∧
    (parseToken st elem).apiWithStage = (parseToken st1 elem).apiWithStage := by
  unfold parseToken
  rcases stringsSplit elem '/' with _ | ⟨a, _ | ⟨b, _ | ⟨c, rest⟩⟩⟩
  · exact ⟨hall, hwith⟩
  · simp [hall, hwith]
  · simp only [hall, hwith]
    by_cases hc : contains st1.apiAllStages a = true <;> simp [hc, hall, hwith]
  · exact ⟨hall, hwith⟩

theorem foldl_parseToken_malformed (tokens : List String) (st st1 : ParseState)
    (hall : st.apiAllStages = st1.apiAllStages) (hwith : st.apiWithStage = st1.apiWithStage) :
    (tokens.foldl parseToken st).diagnostics =
      st.diagnostics ++ (tokens.filter isMalformed).map malformedDiagnostic ∧
    (tokens.foldl parseToken st).apiAllStages =
      ((tokens.filter (fun t => !isMalformed t)).foldl parseToken st1).apiAllStages ∧
    (tokens.foldl parseToken st).apiWithStage =
      ((tokens.filter (fun t => !isMalformed t)).foldl parseToken st1).apiWithStage := by
  induction tokens generalizing st st1 with
  | nil => simp [hall, hwith]
  | cons t tokens ih =>
    rw [List.foldl_cons]
    cases hm : isMalformed t with
    | true =>
      have hstep := parseToken_malformed st t hm
      obtain ⟨h1, h2, h3⟩ := ih (parseToken st t) st1 (by rw [hstep]; exact hall)
        (by rw [hstep]; exact hwith)
      refine ⟨?_, ?_, ?_⟩
      · rw [h1, hstep]
        simp [hm]
      · simpa [hm] using h2
      · simpa [hm] using h3
    | false =>
      obtain ⟨ha, hw⟩ := parseToken_intent st st1 t hall hwith
      obtain ⟨h1, h2, h3⟩ := ih (parseToken st t) (parseToken st1 t) ha hw
      refine ⟨?_, ?_, ?_⟩
      · rw [h1, parseToken_wellFormed st t hm]
        simp [hm]
      · simpa [hm] using h2
      · simpa [hm] using h3

/-- C19. Malformed tokens are accumulated and do not affect the rest of the parse: the
diagnostics of the token loop are the malformed-token errors of the tokens that split
on the slash into three or more parts, one for each and in token order, and the
intent is the intent of the same list without those tokens. -/
theorem C19_malformed_accumulated (tokens : List String) :
    (parseTokens tokens).diagnostics =
      (tokens.filter (fun t => decide (3 ≤ (stringsSplit t '/').length))).map
        (fun t => { severity := Severity.Error,
                    summary := "api gateway syntax is wrong for " ++ t }) ∧
    (parseTokens tokens).diagnostics.length =
      (tokens.filter (fun t => decide (3 ≤ (stringsSplit t '/').length))).length ∧
    (parseTokens tokens).apiAllStages =
      (parseTokens
        (tokens.filter (fun t => !decide (3 ≤ (stringsSplit t '/').length)))).apiAllStages ∧
    (parseTokens tokens).apiWithStage =
      (parseTokens
        (tokens.filter (fun t => !decide (3 ≤ (stringsSplit t '/').length)))).apiWithStage := by
  obtain ⟨h1, h2, h3⟩ :=
    foldl_parseToken_malformed tokens ParseState.init ParseState.init rfl rfl
  have hd : (parseTokens tokens).diagnostics =
      (tokens.filter (fun t => decide (3 ≤ (stringsSplit t '/').length))).map
        (fun t => { severity := Severity.Error,
                    summary := "api gateway syntax is wrong for " ++ t }) := by
    simpa [parseTokens, ParseState.init] using h1
  refine ⟨hd, ?_, h2, h3⟩
  rw [hd, List.length_map]

/-! ## C17: a failed stage fetch -/

/-- C17 on the code: a `GetStages` call that returns an error and no output makes the
stage loops of both families fail at `res.Item` (resp. `res.Items`): the functions do
not return, whatever else the map selects; when the failing call returns an empty
output next to the error, the loops record one error diagnostic for the gateway and
go on to the next gateway. -/
theorem C17_failed_stage_fetch :
    (∀ (conn : AwsApiGatewayProvider) (unmarshal : Unmarshal)
      (exclude ignoreAccessLogSettings : Bool) (acc : Findings) (entry : String × List String)
      (e : String),
      checkRestGateway { conn with getStages := fun _ => { res := none, err := some e } }
        unmarshal exclude ignoreAccessLogSettings acc entry = none ∧
      checkV2Gateway { conn with getStagesV2 := fun _ => { res := none, err := some e } }
        unmarshal exclude acc entry = none) ∧
    checkRestApiGatewayStages failingStages sampleUnmarshal [("A", []), ("B", [])] false false =
      none ∧
    checkApiGatewayV2Stages failingStages sampleUnmarshal [("A", []), ("B", [])] false = none ∧
    checkApiGateways failingStages sampleUnmarshal ["A", "B"] false false = none ∧
    checkRestApiGatewayStages failingStagesWithOutput sampleUnmarshal [("A", []), ("B", [])]
        false false =
      some ([errorDiagnostic "Error while invoking getStages sdk call: boom",
             warnDiagnostic "Access logs not enabled for REST API B stage prod"], []) ∧
    checkApiGatewayV2Stages failingStagesWithOutput sampleUnmarshal [("A", []), ("B", [])]
        false =
      some ([errorDiagnostic "Error while invoking getStages sdk call: boom",
             warnDiagnostic "Access logs not enabled for REST API B stage prod"], []) := by
  refine ⟨?_, by decide, by decide, by decide, by decide, by decide⟩
  intro conn unmarshal exclude ignoreAccessLogSettings acc entry e
  exact ⟨rfl, rfl⟩

/-! ## C12: ignoring the access-log settings -/

theorem isPrefixOf_append_false (p q r : List Char)
    (h1 : p.isPrefixOf q = false) (h2 : q.isPrefixOf p = false) :
    p.isPrefixOf (q ++ r) = false := by
  induction p generalizing q with
  | nil => simp at h1
  | cons a p ih =>
    cases q with
    | nil => simp at h2
    | cons b q =>
      simp only [List.isPrefixOf_cons₂, List.cons_append, Bool.and_eq_false_imp] at h1 h2 ⊢
      intro hab
      have hba : (b == a) = true := by
        rw [beq_iff_eq] at hab ⊢
        exact hab.symm
      exact ih q (h1 hab) (h2 hba)

theorem hasPrefix_append_false (p q r : String)
    (h1 : hasPrefix p q = false) (h2 : hasPrefix q p = false) :
    hasPrefix p (q ++ r) = false := by
  unfold hasPrefix at *
  rw [String.data_append]
  exact isPrefixOf_append_false _ _ _ h1 h2

theorem isPrefixOf_append_true (p q r : List Char) (h : p.isPrefixOf q = true) :
    p.isPrefixOf (q ++ r) = true := by
  induction p generalizing q with
  | nil => simp
  | cons a p ih =>
    cases q with
    | nil => simp at h
    | cons b q =>
      simp only [List.isPrefixOf_cons₂, List.cons_append, Bool.and_eq_true] at h ⊢
      exact ⟨h.1, ih q h.2⟩

theorem hasPrefix_append_true (p q r : String) (h : hasPrefix p q = true) :
    hasPrefix p (q ++ r) = true := by
  unfold hasPrefix at *
  rw [String.data_append]
  exact isPrefixOf_append_true _ _ _ h

/-- Two texts that differ at a position they both have keep doing so when the second
one is extended. -/
theorem diverge_append (p q r : String)
    (h : hasPrefix p q = false ∧ hasPrefix q p = false) :
    hasPrefix p (q ++ r) = false ∧ hasPrefix (q ++ r) p = false := by
  refine ⟨hasPrefix_append_false p q r h.1 h.2, ?_⟩
  have h2 := h.2
  unfold hasPrefix at *
  rw [String.data_append]
  rw [Bool.eq_false_iff] at h2 ⊢
  intro hpre
  apply h2
  rw [List.isPrefixOf_iff_prefix] at hpre ⊢
  exact (List.prefix_append _ _).trans hpre

theorem errorSummary_diverge (p call e : String)
    (h : hasPrefix p "Error while invoking " = false ∧ hasPrefix "Error while invoking " p = false) :
    hasPrefix p ("Error while invoking " ++ call ++ " sdk call: " ++ e) = false :=
  (diverge_append _ _ e (diverge_append _ _ " sdk call: " (diverge_append _ _ call h))).1

theorem recordError_mem (call : String) (err : Option String) (diagnostics : Diagnostics)
    (d : Diagnostic) (h : d ∈ recordError call err diagnostics) :
    d ∈ diagnostics ∨
      ∃ e, d = errorDiagnostic ("Error while invoking " ++ call ++ " sdk call: " ++ e) := by
  cases err with
  | none => exact Or.inl h
  | some e =>
    simp only [recordError, List.mem_append, List.mem_singleton] at h
    rcases h with h | h
    · exact Or.inl h
    · exact Or.inr ⟨e, h⟩

theorem isAccess_error (call e : String) :
    isAccessLogDiagnostic
      (errorDiagnostic ("Error while invoking " ++ call ++ " sdk call: " ++ e)) = false :=
  errorSummary_diverge "Access log" call e (by decide)

theorem isExecution_error (call e : String) :
    isExecutionLogDiagnostic
      (errorDiagnostic ("Error while invoking " ++ call ++ " sdk call: " ++ e)) = false := by
  have h1 := errorSummary_diverge "Execution logs" call e (by decide)
  have h2 := errorSummary_diverge "Full Request and Response Logs" call e (by decide)
  simp only [isExecutionLogDiagnostic, errorDiagnostic, newDiagnostic, h1, h2, Bool.or_self]

theorem isAccess_malformed (elem : String) :
    isAccessLogDiagnostic (malformedDiagnostic elem) = false :=
  (diverge_append "Access log" "api gateway syntax is wrong for " elem (by decide)).1

theorem stageSummary_diverge (p lit apiId stageName : String)
    (h : hasPrefix p lit = false ∧ hasPrefix lit p = false) :
    hasPrefix p (lit ++ apiId ++ " stage " ++ stageName) = false :=
  (diverge_append _ _ stageName (diverge_append _ _ " stage " (diverge_append _ _ apiId h))).1

theorem isExecution_notEnabled (apiId stageName : String) :
    isExecutionLogDiagnostic (warnDiagnostic
      ("Access logs not enabled for REST API " ++ apiId ++ " stage " ++ stageName)) = false := by
  have h1 := stageSummary_diverge "Execution logs" "Access logs not enabled for REST API "
    apiId stageName (by decide)
  have h2 := stageSummary_diverge "Full Request and Response Logs"
    "Access logs not enabled for REST API " apiId stageName (by decide)
  simp only [isExecutionLogDiagnostic, warnDiagnostic, newDiagnostic, h1, h2, Bool.or_self]

/-- The messages of `verifyAccessLogFormat` differ from `p` as soon as the text
`Access log format is ` does. -/
theorem verify_summary_diverge (unmarshal : Unmarshal) (format p : String) (d : Diagnostic)
    (hd : verifyAccessLogFormat unmarshal format = some d)
    (h1 : hasPrefix p "Access log format is not JSON parsable" = false ∧
      hasPrefix "Access log format is not JSON parsable" p = false)
    (h2 : hasPrefix p "Access log format is missing required values " = false ∧
      hasPrefix "Access log format is missing required values " p = false) :
    hasPrefix p d.summary = false ∧ hasPrefix d.summary p = false := by
  unfold verifyAccessLogFormat at hd
  cases hp : parseFormat unmarshal format with
  | none =>
    simp only [hp, Option.some.injEq] at hd
    rw [← hd]
    exact h1
  | some parsed =>
    simp only [hp, checkFormatValues_eq] at hd
    split at hd
    · exact absurd hd (by simp)
    · simp only [Option.some.injEq] at hd
      rw [← hd]
      exact diverge_append _ _ _ h2

theorem isExecution_format (unmarshal : Unmarshal) (format apiId stageName : String)
    (d : Diagnostic) (hd : verifyAccessLogFormat unmarshal format = some d) :
    isExecutionLogDiagnostic { d with
      summary := d.summary ++ " for API " ++ apiId ++ " stage " ++ stageName } = false := by
  have h1 := verify_summary_diverge unmarshal format "Execution logs" d hd (by decide) (by decide)
  have h2 := verify_summary_diverge unmarshal format "Full Request and Response Logs" d hd
    (by decide) (by decide)
  have g1 := (diverge_append _ _ stageName (diverge_append _ _ " stage "
    (diverge_append _ _ apiId (diverge_append _ _ " for API " h1)))).1
  have g2 := (diverge_append _ _ stageName (diverge_append _ _ " stage "
    (diverge_append _ _ apiId (diverge_append _ _ " for API " h2)))).1
  simp only [isExecutionLogDiagnostic, g1, g2, Bool.or_self]

/-- A property of the accumulator that every returning iteration preserves holds
when the loop returns. -/
theorem foldlM_preserves {α β : Type} (P : β → Prop) (f : β → α → Option β)
    (hstep : ∀ acc a acc1, P acc → f acc a = some acc1 → P acc1)
    (l : List α) (acc r : β) (h : P acc) (hr : l.foldlM f acc = some r) : P r := by
  induction l generalizing acc with
  | nil =>
    simp only [List.foldlM_nil, pure, Option.some.injEq] at hr
    exact hr ▸ h
  | cons a l ih =>
    rw [List.foldlM_cons] at hr
    cases ha : f acc a with
    | none => simp [ha] at hr
    | some acc1 =>
      simp only [ha, Option.some_bind, Option.bind_eq_bind] at hr
      exact ih acc1 (hstep acc a acc1 h ha) hr

/-- A loop whose body is simulated by the body of a second loop is simulated by the
second loop. -/
theorem foldlM_simulates {α β : Type} (R : β → β → Prop) (f g : β → α → Option β)
    (hstep : ∀ a b x b1, R a b → g b x = some b1 → ∃ a1, f a x = some a1 ∧ R a1 b1)
    (l : List α) (a b rb : β) (h : R a b) (hr : l.foldlM g b = some rb) :
    ∃ ra, l.foldlM f a = some ra ∧ R ra rb := by
  induction l generalizing a b with
  | nil =>
    simp only [List.foldlM_nil, pure, Option.some.injEq] at hr
    exact ⟨a, rfl, hr ▸ h⟩
  | cons x l ih =>
    rw [List.foldlM_cons] at hr
    cases hb : g b x with
    | none => simp [hb] at hr
    | some b1 =>
      simp only [hb, Option.some_bind, Option.bind_eq_bind] at hr
      obtain ⟨a1, ha1, hR⟩ := hstep a b x b1 h hb
      obtain ⟨ra, hra, hRr⟩ := ih a1 b1 hR hr
      exact ⟨ra, by rw [List.foldlM_cons, ha1]; exact hra, hRr⟩

theorem isAccess_executionWarning (lit apiId stageName : String)
    (h : hasPrefix "Access log" lit = false ∧ hasPrefix lit "Access log" = false) :
    isAccessLogDiagnostic (warnDiagnostic (lit ++ apiId ++ " stage " ++ stageName)) = false :=
  stageSummary_diverge "Access log" lit apiId stageName h

/-- The execution-log block appends findings that do not depend on the accumulator. -/
theorem checkExecutionLog_delta (apiId stageName : String)
    (methodSettings : List (String × MethodSetting)) (acc : Findings) :
    checkExecutionLog apiId stageName methodSettings acc =
      (checkExecutionLog apiId stageName methodSettings ([], [])).map
        (fun delta => (acc.1 ++ delta.1, acc.2 ++ delta.2)) := by
  unfold checkExecutionLog
  cases hl : lookupKey methodSettings "*/*" with
  | none => simp
  | some settings =>
    cases hlev : settings.LoggingLevel with
    | none => simp [hlev]
    | some level =>
      by_cases h1 : level = "INFO"
      · cases ht : settings.DataTraceEnabled <;> simp [hlev, h1, ht]
      · by_cases h2 : level = "ERROR" <;> simp [hlev, h1, h2]

theorem checkExecutionLog_noAccess (apiId stageName : String)
    (methodSettings : List (String × MethodSetting)) (acc acc1 : Findings)
    (hacc : NoAccessLogFindings acc)
    (h : checkExecutionLog apiId stageName methodSettings acc = some acc1) :
    NoAccessLogFindings acc1 := by
  unfold checkExecutionLog at h
  cases hl : lookupKey methodSettings "*/*" with
  | none =>
    simp only [hl, Option.some.injEq] at h
    exact h ▸ hacc
  | some settings =>
    cases hlev : settings.LoggingLevel with
    | none => simp [hl, hlev] at h
    | some level =>
      simp only [hl, hlev] at h
      split at h
      · simp only [Option.some.injEq] at h
        rw [← h]
        refine ⟨hacc.1, ?_⟩
        intro n hn
        rcases List.mem_append.mp hn with hn | hn
        · exact hacc.2 n hn
        · exact ⟨apiId, stageName, by simpa using hn⟩
      · split at h
        · simp only [Option.some.injEq] at h
          rw [← h]
          refine ⟨?_, hacc.2⟩
          intro d hd
          rcases List.mem_append.mp hd with hd | hd
          · exact hacc.1 d hd
          · rw [List.mem_singleton.mp hd]
            exact isAccess_executionWarning _ apiId stageName (by decide)
        · split at h
          · simp only [Option.some.injEq] at h
            rw [← h]
            refine ⟨?_, hacc.2⟩
            intro d hd
            rcases List.mem_append.mp hd with hd | hd
            · exact hacc.1 d hd
            · rw [List.mem_singleton.mp hd]
              exact isAccess_executionWarning _ apiId stageName (by decide)
          · simp only [Option.some.injEq] at h
            rw [← h]
            refine ⟨?_, hacc.2⟩
            intro d hd
            rcases List.mem_append.mp hd with hd | hd
            · exact hacc.1 d hd
            · rw [List.mem_singleton.mp hd]
              exact isAccess_executionWarning _ apiId stageName (by decide)

/-- The access-log block leaves the execution-log diagnostics as they are. -/
theorem checkAccessLog_sameExecution (unmarshal : Unmarshal) (apiId stageName : String)
    (settings : Option AccessLogSettings) (acc acc1 : Findings)
    (h : checkAccessLog unmarshal apiId stageName settings acc = some acc1) :
    SameExecutionLog acc1 acc := by
  have hne : SameExecutionLog (accessLogsNotEnabled apiId stageName acc) acc := by
    simp [SameExecutionLog, accessLogsNotEnabled, List.filter_append,
      isExecution_notEnabled apiId stageName]
  unfold checkAccessLog at h
  cases hs : settings with
  | none =>
    simp only [hs, Option.some.injEq] at h
    exact h ▸ hne
  | some s =>
    cases hd : s.DestinationArn with
    | none =>
      simp only [hs, hd, Option.some.injEq] at h
      exact h ▸ hne
    | some arn =>
      cases hf : s.Format with
      | none => simp [hs, hd, hf] at h
      | some format =>
        cases hv : verifyAccessLogFormat unmarshal format with
        | some d =>
          simp only [hs, hd, hf, hv, Option.some.injEq] at h
          rw [← h]
          simp [SameExecutionLog, List.filter_append,
            isExecution_format unmarshal format apiId stageName d hv]
        | none =>
          cases hn : getAccessLogGroupNameFromArn arn with
          | none => simp [hs, hd, hf, hv, hn] at h
          | some name =>
            simp only [hs, hd, hf, hv, hn, Option.some.injEq] at h
            rw [← h]
            rfl

theorem recordError_sameExecution (call : String) (err : Option String)
    (diagnostics : Diagnostics) :
    (recordError call err diagnostics).filter isExecutionLogDiagnostic =
      diagnostics.filter isExecutionLogDiagnostic := by
  cases err with
  | none => rfl
  | some e => simp [recordError, List.filter_append, isExecution_error call e]

theorem recordError_noAccess (call : String) (err : Option String) (diagnostics : Diagnostics)
    (h : ∀ d ∈ diagnostics, isAccessLogDiagnostic d = false) :
    ∀ d ∈ recordError call err diagnostics, isAccessLogDiagnostic d = false := by
  intro d hd
  rcases recordError_mem call err diagnostics d hd with hd | ⟨e, rfl⟩
  · exact h d hd
  · exact isAccess_error call e

theorem checkRestStage_noAccess (unmarshal : Unmarshal) (exclude : Bool) (apiId : String)
    (apiStages : List String) (acc : Findings) (stage : Stage) (acc1 : Findings)
    (hacc : NoAccessLogFindings acc)
    (h : checkRestStage unmarshal exclude true apiId apiStages acc stage = some acc1) :
    NoAccessLogFindings acc1 := by
  unfold checkRestStage at h
  cases hn : stage.StageName with
  | none => simp [hn] at h
  | some stageName =>
    simp only [hn] at h
    split at h
    · simp only [Option.some.injEq] at h
      exact h ▸ hacc
    · cases he : checkExecutionLog apiId stageName stage.MethodSettings acc with
      | none => simp [he] at h
      | some acc2 =>
        simp only [he, if_true, Option.some.injEq] at h
        exact h ▸ checkExecutionLog_noAccess apiId stageName _ acc acc2 hacc he

theorem checkRestGateway_noAccess (conn : AwsApiGatewayProvider) (unmarshal : Unmarshal)
    (exclude : Bool) (acc : Findings) (entry : String × List String) (acc1 : Findings)
    (hacc : NoAccessLogFindings acc)
    (h : checkRestGateway conn unmarshal exclude true acc entry = some acc1) :
    NoAccessLogFindings acc1 := by
  unfold checkRestGateway at h
  cases hres : (conn.getStages entry.1).res with
  | none => simp [hres] at h
  | some items =>
    simp only [hres] at h
    exact foldlM_preserves NoAccessLogFindings _
      (fun a x a1 ha hx => checkRestStage_noAccess unmarshal exclude entry.1 entry.2 a x a1 ha hx)
      items (recordError "getStages" (conn.getStages entry.1).err acc.1, acc.2) acc1
      ⟨recordError_noAccess _ _ _ hacc.1, hacc.2⟩ h

theorem checkRestStage_simulates (unmarshal : Unmarshal) (exclude : Bool) (apiId : String)
    (apiStages : List String) (a b : Findings) (stage : Stage) (b1 : Findings)
    (hab : SameExecutionLog a b)
    (h : checkRestStage unmarshal exclude false apiId apiStages b stage = some b1) :
    ∃ a1, checkRestStage unmarshal exclude true apiId apiStages a stage = some a1 ∧
      SameExecutionLog a1 b1 := by
  unfold checkRestStage at h ⊢
  cases hn : stage.StageName with
  | none => simp [hn] at h
  | some stageName =>
    simp only [hn] at h ⊢
    by_cases hg : (decide (apiStages.length > 0) && (contains apiStages stageName == exclude)) = true
    · simp only [hg, if_true, Option.some.injEq] at h ⊢
      exact ⟨a, rfl, h ▸ hab⟩
    · simp only [hg, if_false, Bool.false_eq_true] at h ⊢
      rw [checkExecutionLog_delta] at h ⊢
      cases he : checkExecutionLog apiId stageName stage.MethodSettings ([], []) with
      | none => simp [he] at h
      | some delta =>
        simp only [he, Option.map_some', if_true] at h ⊢
        refine ⟨_, rfl, ?_⟩
        have hacc := checkAccessLog_sameExecution unmarshal apiId stageName _ _ b1 h
        unfold SameExecutionLog at hab hacc ⊢
        rw [hacc]
        simp only [List.filter_append, hab]

theorem checkRestGateway_simulates (conn : AwsApiGatewayProvider) (unmarshal : Unmarshal)
    (exclude : Bool) (a b : Findings) (entry : String × List String) (b1 : Findings)
    (hab : SameExecutionLog a b)
    (h : checkRestGateway conn unmarshal exclude false b entry = some b1) :
    ∃ a1, checkRestGateway conn unmarshal exclude true a entry = some a1 ∧
      SameExecutionLog a1 b1 := by
  unfold checkRestGateway at h ⊢
  cases hres : (conn.getStages entry.1).res with
  | none => simp [hres] at h
  | some items =>
    simp only [hres] at h ⊢
    refine foldlM_simulates SameExecutionLog _ _
      (fun x y st y1 hxy hy =>
        checkRestStage_simulates unmarshal exclude entry.1 entry.2 x y st y1 hxy hy)
      items _ _ b1 ?_ h
    unfold SameExecutionLog at hab ⊢
    simp only [recordError_sameExecution, hab]

theorem checkV2Stage_sameExecution (unmarshal : Unmarshal) (exclude : Bool) (apiId : String)
    (apiStages : List String) (acc : Findings) (stage : StageV2) (acc1 : Findings)
    (h : checkV2Stage unmarshal exclude apiId apiStages acc stage = some acc1) :
    SameExecutionLog acc1 acc := by
  unfold checkV2Stage at h
  cases hn : stage.StageName with
  | none => simp [hn] at h
  | some stageName =>
    simp only [hn] at h
    split at h
    · simp only [Option.some.injEq] at h
      rw [← h]
      rfl
    · exact checkAccessLog_sameExecution unmarshal apiId stageName _ acc acc1 h

theorem checkV2Gateway_sameExecution (conn : AwsApiGatewayProvider) (unmarshal : Unmarshal)
    (exclude : Bool) (acc : Findings) (entry : String × List String) (acc1 : Findings)
    (h : checkV2Gateway conn unmarshal exclude acc entry = some acc1) :
    SameExecutionLog acc1 acc := by
  unfold checkV2Gateway at h
  cases hres : (conn.getStagesV2 entry.1).res with
  | none => simp [hres] at h
  | some items =>
    simp only [hres] at h
    refine foldlM_preserves (fun x => SameExecutionLog x acc) _ ?_ items _ acc1 ?_ h
    · intro x st x1 hx hst
      have := checkV2Stage_sameExecution unmarshal exclude entry.1 entry.2 x st x1 hst
      unfold SameExecutionLog at this hx ⊢
      rw [this, hx]
    · unfold SameExecutionLog
      simp only [recordError_sameExecution]

/-- The stage loop of the HTTP family adds no execution-log diagnostic. -/
theorem checkApiGatewayV2Stages_noExecution (conn : AwsApiGatewayProvider)
    (unmarshal : Unmarshal) (mapping : StageMap) (exclude : Bool) (r : Findings)
    (h : checkApiGatewayV2Stages conn unmarshal mapping exclude = some r) :
    r.1.filter isExecutionLogDiagnostic = [] := by
  have := foldlM_preserves (fun x => SameExecutionLog x ([], [])) _
    (fun x entry x1 hx hentry =>
      (checkV2Gateway_sameExecution conn unmarshal exclude x entry x1 hentry).trans hx)
    mapping ([], []) r rfl h
  simpa [SameExecutionLog] using this

theorem restCatalog_noAccess (pages : List (Answer (List RestApi))) (d0 : Diagnostics)
    (h : ∀ d ∈ d0, isAccessLogDiagnostic d = false) :
    ∀ d ∈ pages.foldl (fun d page => recordError "getRestApis" page.err d) d0,
      isAccessLogDiagnostic d = false := by
  induction pages generalizing d0 with
  | nil => exact h
  | cons page pages ih => exact ih _ (recordError_noAccess _ _ _ h)

theorem checkRestApiGateways_noAccess (conn : AwsApiGatewayProvider) (unmarshal : Unmarshal)
    (apiAllStages : List String) (apiWithStage : StageMap) (exclude : Bool) (r : Findings)
    (h : checkRestApiGateways conn unmarshal apiAllStages apiWithStage exclude true = some r) :
    NoAccessLogFindings r := by
  unfold checkRestApiGateways at h
  cases hm : restStageMapping conn apiAllStages apiWithStage exclude with
  | none => simp [hm] at h
  | some dm =>
    obtain ⟨diagnostics, mapping⟩ := dm
    cases hs : checkRestApiGatewayStages conn unmarshal mapping exclude true with
    | none => simp [hm, hs] at h
    | some sn =>
      obtain ⟨stagesDiagnostics, names⟩ := sn
      simp only [hm, hs, Option.some.injEq] at h
      have hstages : NoAccessLogFindings (stagesDiagnostics, names) :=
        foldlM_preserves NoAccessLogFindings _
          (fun a x a1 ha hx => checkRestGateway_noAccess conn unmarshal exclude a x a1 ha hx)
          mapping ([], []) _ ⟨by simp, by simp⟩ hs
      have hdiag : ∀ d ∈ diagnostics, isAccessLogDiagnostic d = false := by
        have := restPages_diagnostics _ _ _ _ ([], []) _ hm
        simp only at this
        rw [this]
        exact restCatalog_noAccess _ [] (by simp)
      rw [← h]
      refine ⟨?_, hstages.2⟩
      intro d hd
      rcases List.mem_append.mp hd with hd | hd
      · exact hdiag d hd
      · exact hstages.1 d hd

theorem checkRestApiGateways_simulates (conn : AwsApiGatewayProvider) (unmarshal : Unmarshal)
    (apiAllStages : List String) (apiWithStage : StageMap) (exclude : Bool) (rf : Findings)
    (h : checkRestApiGateways conn unmarshal apiAllStages apiWithStage exclude false = some rf) :
    ∃ rt, checkRestApiGateways conn unmarshal apiAllStages apiWithStage exclude true = some rt ∧
      SameExecutionLog rt rf := by
  unfold checkRestApiGateways at h ⊢
  cases hm : restStageMapping conn apiAllStages apiWithStage exclude with
  | none => simp [hm] at h
  | some dm =>
    obtain ⟨diagnostics, mapping⟩ := dm
    cases hs : checkRestApiGatewayStages conn unmarshal mapping exclude false with
    | none => simp [hm, hs] at h
    | some sn =>
      obtain ⟨stagesDiagnostics, names⟩ := sn
      simp only [hm, hs, Option.some.injEq] at h
      obtain ⟨st, hst, hsame⟩ := foldlM_simulates SameExecutionLog
        (checkRestGateway conn unmarshal exclude true) (checkRestGateway conn unmarshal exclude false)
        (fun x y entry y1 hxy hy =>
          checkRestGateway_simulates conn unmarshal exclude x y entry y1 hxy hy)
        mapping ([], []) ([], []) _ rfl hs
      have hst1 : checkRestApiGatewayStages conn unmarshal mapping exclude true = some st := hst
      refine ⟨(diagnostics ++ st.1, st.2), by simp [hst1], ?_⟩
      unfold SameExecutionLog at hsame ⊢
      rw [← h]
      simp only [List.filter_append, hsame]

theorem checkApiGatewaysV2_ignore (conn : AwsApiGatewayProvider) (unmarshal : Unmarshal)
    (apiAllStages : List String) (apiWithStage : StageMap) (exclude : Bool) (r : Findings)
    (h : checkApiGatewaysV2 conn unmarshal apiAllStages apiWithStage exclude true = some r) :
    r = (recordError "getApis" conn.getApis.err [], []) := by
  unfold checkApiGatewaysV2 at h
  cases hm : v2StageMapping conn apiAllStages apiWithStage exclude with
  | none => simp [hm] at h
  | some dm =>
    have hd := v2StageMapping_diagnostics conn _ _ _ dm hm
    simp only [hm, Bool.not_true, Bool.false_eq_true, if_false, Option.some.injEq] at h
    rw [← h, hd]

theorem checkApiGatewaysV2_simulates (conn : AwsApiGatewayProvider) (unmarshal : Unmarshal)
    (apiAllStages : List String) (apiWithStage : StageMap) (exclude : Bool) (vf : Findings)
    (h : checkApiGatewaysV2 conn unmarshal apiAllStages apiWithStage exclude false = some vf) :
    ∃ vt, checkApiGatewaysV2 conn unmarshal apiAllStages apiWithStage exclude true = some vt ∧
      SameExecutionLog vt vf := by
  unfold checkApiGatewaysV2 at h ⊢
  cases hm : v2StageMapping conn apiAllStages apiWithStage exclude with
  | none => simp [hm] at h
  | some dm =>
    obtain ⟨diagnostics, mapping⟩ := dm
    cases hs : checkApiGatewayV2Stages conn unmarshal mapping exclude with
    | none => simp [hm, hs] at h
    | some sn =>
      simp only [hm, hs, Bool.not_false, if_true, Option.some.injEq] at h
      refine ⟨(diagnostics, []), by simp, ?_⟩
      have hnone := checkApiGatewayV2Stages_noExecution conn unmarshal mapping exclude sn hs
      unfold SameExecutionLog
      rw [← h]
      simp only [List.filter_append, hnone, List.append_nil]

theorem stageSummary_hasPrefix (p lit apiId stageName : String) (h : hasPrefix p lit = true) :
    hasPrefix p (lit ++ apiId ++ " stage " ++ stageName) = true :=
  hasPrefix_append_true _ _ _ (hasPrefix_append_true _ _ _ (hasPrefix_append_true _ _ _ h))

/-- Every diagnostic that the execution-log block adds is an execution-log diagnostic. -/
theorem checkExecutionLog_adds (apiId stageName : String)
    (methodSettings : List (String × MethodSetting)) (acc acc1 : Findings)
    (h : checkExecutionLog apiId stageName methodSettings acc = some acc1) :
    ∀ d ∈ acc1.1, d ∈ acc.1 ∨ isExecutionLogDiagnostic d = true := by
  unfold checkExecutionLog at h
  cases hl : lookupKey methodSettings "*/*" with
  | none =>
    simp only [hl, Option.some.injEq] at h
    rw [← h]
    exact fun d hd => Or.inl hd
  | some settings =>
    cases hlev : settings.LoggingLevel with
    | none => simp [hl, hlev] at h
    | some level =>
      simp only [hl, hlev] at h
      split at h
      · simp only [Option.some.injEq] at h
        rw [← h]
        exact fun d hd => Or.inl hd
      · split at h
        · simp only [Option.some.injEq] at h
          rw [← h]
          intro d hd
          rcases List.mem_append.mp hd with hd | hd
          · exact Or.inl hd
          · rw [List.mem_singleton.mp hd]
            have := stageSummary_hasPrefix "Full Request and Response Logs"
              "Full Request and Response Logs not enabled for API " apiId stageName (by decide)
            exact Or.inr (by
              simp only [isExecutionLogDiagnostic, warnDiagnostic, newDiagnostic, this,
                Bool.or_true])
        · split at h
          · simp only [Option.some.injEq] at h
            rw [← h]
            intro d hd
            rcases List.mem_append.mp hd with hd | hd
            · exact Or.inl hd
            · rw [List.mem_singleton.mp hd]
              have := stageSummary_hasPrefix "Execution logs"
                "Execution logs set to Errors Only for API " apiId stageName (by decide)
              exact Or.inr (by
                simp only [isExecutionLogDiagnostic, warnDiagnostic, newDiagnostic, this,
                  Bool.true_or])
          · simp only [Option.some.injEq] at h
            rw [← h]
            intro d hd
            rcases List.mem_append.mp hd with hd | hd
            · exact Or.inl hd
            · rw [List.mem_singleton.mp hd]
              have := stageSummary_hasPrefix "Execution logs"
                "Execution logs not enabled for API " apiId stageName (by decide)
              exact Or.inr (by
                simp only [isExecutionLogDiagnostic, warnDiagnostic, newDiagnostic, this,
                  Bool.true_or])

theorem verify_summary_hasPrefix (unmarshal : Unmarshal) (format : String) (d : Diagnostic)
    (hd : verifyAccessLogFormat unmarshal format = some d) :
    hasPrefix "Access log" d.summary = true := by
  unfold verifyAccessLogFormat at hd
  cases hp : parseFormat unmarshal format with
  | none =>
    simp only [hp, Option.some.injEq] at hd
    rw [← hd]
    decide
  | some parsed =>
    simp only [hp, checkFormatValues_eq] at hd
    split at hd
    · exact absurd hd (by simp)
    · simp only [Option.some.injEq] at hd
      rw [← hd]
      exact hasPrefix_append_true _ _ _ (by decide)

/-- Every diagnostic that the access-log block adds is an access-log diagnostic. -/
theorem checkAccessLog_adds (unmarshal : Unmarshal) (apiId stageName : String)
    (settings : Option AccessLogSettings) (acc acc1 : Findings)
    (h : checkAccessLog unmarshal apiId stageName settings acc = some acc1) :
    ∀ d ∈ acc1.1, d ∈ acc.1 ∨ isAccessLogDiagnostic d = true := by
  have hne : ∀ d ∈ (accessLogsNotEnabled apiId stageName acc).1,
      d ∈ acc.1 ∨ isAccessLogDiagnostic d = true := by
    intro d hd
    rcases List.mem_append.mp hd with hd | hd
    · exact Or.inl hd
    · rw [List.mem_singleton.mp hd]
      exact Or.inr (stageSummary_hasPrefix "Access log" "Access logs not enabled for REST API "
        apiId stageName (by decide))
  unfold checkAccessLog at h
  cases hs : settings with
  | none =>
    simp only [hs, Option.some.injEq] at h
    exact h ▸ hne
  | some s =>
    cases hd : s.DestinationArn with
    | none =>
      simp only [hs, hd, Option.some.injEq] at h
      exact h ▸ hne
    | some arn =>
      cases hf : s.Format with
      | none => simp [hs, hd, hf] at h
      | some format =>
        cases hv : verifyAccessLogFormat unmarshal format with
        | some dv =>
          simp only [hs, hd, hf, hv, Option.some.injEq] at h
          rw [← h]
          intro d hmem
          rcases List.mem_append.mp hmem with hmem | hmem
          · exact Or.inl hmem
          · rw [List.mem_singleton.mp hmem]
            exact Or.inr (hasPrefix_append_true _ _ _ (hasPrefix_append_true _ _ _
              (hasPrefix_append_true _ _ _ (hasPrefix_append_true _ _ _
                (verify_summary_hasPrefix unmarshal format dv hv)))))
        | none =>
          cases hn : getAccessLogGroupNameFromArn arn with
          | none => simp [hs, hd, hf, hv, hn] at h
          | some name =>
            simp only [hs, hd, hf, hv, hn, Option.some.injEq] at h
            rw [← h]
            exact fun d hmem => Or.inl hmem

theorem parseTokens_noAccess (tokens : List String) :
    ∀ d ∈ (parseTokens tokens).diagnostics, isAccessLogDiagnostic d = false := by
  have h := (foldl_parseToken_malformed tokens ParseState.init ParseState.init rfl rfl).1
  intro d hd
  unfold parseTokens at hd
  rw [h] at hd
  simp only [ParseState.init, List.nil_append, List.mem_map] at hd
  obtain ⟨t, _, rfl⟩ := hd
  exact isAccess_malformed t

theorem checkApiGateways_noAccess (conn : AwsApiGatewayProvider) (unmarshal : Unmarshal)
    (apiGateways : List String) (exclude : Bool) (rt : Findings)
    (h : checkApiGateways conn unmarshal apiGateways exclude true = some rt) :
    NoAccessLogFindings rt := by
  unfold checkApiGateways at h
  by_cases hearly : (!exclude && apiGateways.length == 0) = true
  · simp only [hearly, if_true, Option.some.injEq] at h
    rw [← h]
    refine ⟨?_, by simp⟩
    intro d hd
    simp only [errorDiagnostics, newDiagnostics, List.mem_singleton] at hd
    rw [hd]
    decide
  · simp only [hearly, if_false, Bool.false_eq_true] at h
    cases hr : checkRestApiGateways conn unmarshal (parseTokens apiGateways).apiAllStages
        (parseTokens apiGateways).apiWithStage exclude true with
    | none => simp [hr] at h
    | some rest =>
      cases hv : checkApiGatewaysV2 conn unmarshal (parseTokens apiGateways).apiAllStages
          (parseTokens apiGateways).apiWithStage exclude true with
      | none => simp [hr, hv] at h
      | some v2 =>
        simp only [hr, hv, Option.some.injEq] at h
        have hrest := checkRestApiGateways_noAccess conn unmarshal _ _ exclude rest hr
        have hv2 := checkApiGatewaysV2_ignore conn unmarshal _ _ exclude v2 hv
        rw [← h]
        constructor
        · intro d hd
          simp only [List.mem_append] at hd
          rcases hd with (hd | hd) | hd
          · exact parseTokens_noAccess apiGateways d hd
          · exact hrest.1 d hd
          · rw [hv2] at hd
            exact recordError_noAccess "getApis" conn.getApis.err [] (by simp) d hd
        · intro n hn
          have hmem := ((removeDuplicates_foldl (rest.2 ++ v2.2) [] List.nodup_nil).2 n).mp
            (by simpa [removeDuplicates] using hn)
          rw [hv2] at hmem
          simp only [List.not_mem_nil, List.append_nil, false_or] at hmem
          exact hrest.2 n hmem

theorem checkApiGateways_simulates (conn : AwsApiGatewayProvider) (unmarshal : Unmarshal)
    (apiGateways : List String) (exclude : Bool) (rf : Findings)
    (h : checkApiGateways conn unmarshal apiGateways exclude false = some rf) :
    ∃ rt, checkApiGateways conn unmarshal apiGateways exclude true = some rt ∧
      SameExecutionLog rt rf := by
  unfold checkApiGateways at h ⊢
  by_cases hearly : (!exclude && apiGateways.length == 0) = true
  · simp only [hearly, if_true, Option.some.injEq] at h ⊢
    exact ⟨rf, h, rfl⟩
  · simp only [hearly, if_false, Bool.false_eq_true] at h ⊢
    cases hr : checkRestApiGateways conn unmarshal (parseTokens apiGateways).apiAllStages
        (parseTokens apiGateways).apiWithStage exclude false with
    | none => simp [hr] at h
    | some rest =>
      cases hv : checkApiGatewaysV2 conn unmarshal (parseTokens apiGateways).apiAllStages
          (parseTokens apiGateways).apiWithStage exclude false with
      | none => simp [hr, hv] at h
      | some v2 =>
        simp only [hr, hv, Option.some.injEq] at h
        obtain ⟨rest1, hrest1, hsame1⟩ :=
          checkRestApiGateways_simulates conn unmarshal _ _ exclude rest hr
        obtain ⟨v21, hv21, hsame2⟩ :=
          checkApiGatewaysV2_simulates conn unmarshal _ _ exclude v2 hv
        refine ⟨((parseTokens apiGateways).diagnostics ++ rest1.1 ++ v21.1,
          removeDuplicates (rest1.2 ++ v21.2)), by simp only [hrest1, hv21], ?_⟩
        unfold SameExecutionLog at hsame1 hsame2 ⊢
        rw [← h]
        simp only [List.filter_append, hsame1, hsame2]

/-- C12. Ignoring the access-log settings: a run with `ignoreAccessLogSettings = true`
holds no access-log diagnostic, every name it returns is an execution-log name, and
the HTTP family gives it no name; whenever the run with `ignoreAccessLogSettings =
false` returns on the same input, the run with `true` returns and holds the same
execution-log diagnostics.  The execution-log block adds execution-log diagnostics
only, and the access-log block access-log diagnostics only. -/
theorem C12_ignore_access_log_settings (conn : AwsApiGatewayProvider) (unmarshal : Unmarshal)
    (apiGateways : List String) (exclude : Bool) :
    (∀ rt, checkApiGateways conn unmarshal apiGateways exclude true = some rt →
      (∀ d ∈ rt.1, isAccessLogDiagnostic d = false) ∧
      (∀ n ∈ rt.2, ∃ apiId stageName, n = getExecutionLogGroupName apiId stageName)) ∧
    (∀ apiAllStages apiWithStage vt,
      checkApiGatewaysV2 conn unmarshal apiAllStages apiWithStage exclude true = some vt →
      vt.2 = [] ∧ ∀ d ∈ vt.1, isAccessLogDiagnostic d = false) ∧
    (∀ rf, checkApiGateways conn unmarshal apiGateways exclude false = some rf →
      ∃ rt, checkApiGateways conn unmarshal apiGateways exclude true = some rt ∧
        rt.1.filter isExecutionLogDiagnostic = rf.1.filter isExecutionLogDiagnostic) ∧
    (∀ apiId stageName methodSettings acc acc1,
      checkExecutionLog apiId stageName methodSettings acc = some acc1 →
      ∀ d ∈ acc1.1, d ∈ acc.1 ∨ isExecutionLogDiagnostic d = true) ∧
    (∀ apiId stageName settings acc acc1,
      checkAccessLog unmarshal apiId stageName settings acc = some acc1 →
      ∀ d ∈ acc1.1, d ∈ acc.1 ∨ isAccessLogDiagnostic d = true) := by
  refine ⟨?_, ?_, ?_, ?_, ?_⟩
  · intro rt h
    exact checkApiGateways_noAccess conn unmarshal apiGateways exclude rt h
  · intro apiAllStages apiWithStage vt h
    have := checkApiGatewaysV2_ignore conn unmarshal apiAllStages apiWithStage exclude vt h
    rw [this]
    exact ⟨rfl, recordError_noAccess "getApis" conn.getApis.err [] (by simp)⟩
  · intro rf h
    exact checkApiGateways_simulates conn unmarshal apiGateways exclude rf h
  · intro apiId stageName methodSettings acc acc1 h
    exact checkExecutionLog_adds apiId stageName methodSettings acc acc1 h
  · intro apiId stageName settings acc acc1 h
    exact checkAccessLog_adds unmarshal apiId stageName settings acc acc1 h

/-- C12 at gateway `A` whose stage `prod` has error-only execution logs and no
access-log settings: the run that ignores the access-log settings keeps the
execution-log warning and drops the access-log warning. -/
theorem C12_ignore_access_log_settings_witness :
    checkApiGateways (restOnly ["A"] (fun _ => [errorsOnlyStage])) sampleUnmarshal ["A"]
        false false =
      some ([warnDiagnostic "Execution logs set to Errors Only for API A stage prod",
             warnDiagnostic "Access logs not enabled for REST API A stage prod"], []) ∧
    checkApiGateways (restOnly ["A"] (fun _ => [errorsOnlyStage])) sampleUnmarshal ["A"]
        false true =
      some ([warnDiagnostic "Execution logs set to Errors Only for API A stage prod"], []) ∧
    (∃ rt, checkApiGateways (restOnly ["A"] (fun _ => [errorsOnlyStage])) sampleUnmarshal ["A"]
        false true = some rt ∧
      rt.1.filter isExecutionLogDiagnostic =
        ([warnDiagnostic "Execution logs set to Errors Only for API A stage prod",
          warnDiagnostic "Access logs not enabled for REST API A stage prod"],
         ([] : List String)).1.filter isExecutionLogDiagnostic) :=
  ⟨by decide, by decide,
   (C12_ignore_access_log_settings (restOnly ["A"] (fun _ => [errorsOnlyStage])) sampleUnmarshal
      ["A"] false).2.2.1 _ (by decide)⟩

/-! ## C3: the stage-level filter -/

/-- The guard and the body of the REST stage loop: a named stage is inspected, that
is, handed to the execution-log block and then, unless access-log settings are
ignored, to the access-log block, when the selected list is empty or
`contains apiStages stageName != exclude`; otherwise the findings stay as they are. -/
theorem checkRestStage_inspect (unmarshal : Unmarshal) (exclude ignoreAccessLogSettings : Bool)
    (apiId : String) (apiStages : List String) (acc : Findings) (stage : Stage)
    (stageName : String) (hname : stage.StageName = some stageName) :
    checkRestStage unmarshal exclude ignoreAccessLogSettings apiId apiStages acc stage =
      if (decide (apiStages = []) || (contains apiStages stageName != exclude)) = true then
        (checkExecutionLog apiId stageName stage.MethodSettings acc).bind (fun acc1 =>
          if ignoreAccessLogSettings = true then some acc1
          else checkAccessLog unmarshal apiId stageName stage.AccessLogSettings acc1)
      else some acc := by
  have hbody : ∀ x : Option Findings,
      (match x with
        | none => none
        | some acc1 =>
          if ignoreAccessLogSettings = true then some acc1
          else checkAccessLog unmarshal apiId stageName stage.AccessLogSettings acc1) =
      x.bind (fun acc1 =>
        if ignoreAccessLogSettings = true then some acc1
        else checkAccessLog unmarshal apiId stageName stage.AccessLogSettings acc1) := by
    intro x
    cases x <;> rfl
  cases apiStages with
  | nil => simp [checkRestStage, hname, hbody]
  | cons a rest =>
    cases hc : contains (a :: rest) stageName <;> cases exclude <;>
      simp [checkRestStage, hname, hc, hbody]

/-- The guard and the body of the HTTP stage loop. -/
theorem checkV2Stage_inspect (unmarshal : Unmarshal) (exclude : Bool)
    (apiId : String) (apiStages : List String) (acc : Findings) (stage : StageV2)
    (stageName : String) (hname : stage.StageName = some stageName) :
    checkV2Stage unmarshal exclude apiId apiStages acc stage =
      if (decide (apiStages = []) || (contains apiStages stageName != exclude)) = true then
        checkAccessLog unmarshal apiId stageName stage.AccessLogSettings acc
      else some acc := by
  cases apiStages with
  | nil => simp [checkV2Stage, hname]
  | cons a rest =>
    cases hc : contains (a :: rest) stageName <;> cases exclude <;>
      simp [checkV2Stage, hname, hc]

/-- The access-log block adds exactly one finding: a diagnostic or a name. -/
theorem checkAccessLog_grows (unmarshal : Unmarshal) (apiId stageName : String)
    (settings : Option AccessLogSettings) (acc acc1 : Findings)
    (h : checkAccessLog unmarshal apiId stageName settings acc = some acc1) :
    acc1.1.length + acc1.2.length = acc.1.length + acc.2.length + 1 := by
  unfold checkAccessLog at h
  cases hs : settings with
  | none =>
    simp only [hs, Option.some.injEq] at h
    rw [← h]
    simp [accessLogsNotEnabled]
    omega
  | some s =>
    cases hd : s.DestinationArn with
    | none =>
      simp only [hs, hd, Option.some.injEq] at h
      rw [← h]
      simp [accessLogsNotEnabled]
      omega
    | some arn =>
      cases hf : s.Format with
      | none => simp [hs, hd, hf] at h
      | some format =>
        cases hv : verifyAccessLogFormat unmarshal format with
        | some d =>
          simp only [hs, hd, hf, hv, Option.some.injEq] at h
          rw [← h]
          simp
          omega
        | none =>
          cases hn : getAccessLogGroupNameFromArn arn with
          | none => simp [hs, hd, hf, hv, hn] at h
          | some name =>
            simp only [hs, hd, hf, hv, hn, Option.some.injEq] at h
            rw [← h]
            simp
            omega

/-- The execution-log block removes no finding. -/
theorem checkExecutionLog_grows (apiId stageName : String)
    (methodSettings : List (String × MethodSetting)) (acc acc1 : Findings)
    (h : checkExecutionLog apiId stageName methodSettings acc = some acc1) :
    acc.1.length + acc.2.length ≤ acc1.1.length + acc1.2.length := by
  rw [checkExecutionLog_delta] at h
  cases hd : checkExecutionLog apiId stageName methodSettings ([], []) with
  | none => simp [hd] at h
  | some delta =>
    simp only [hd, Option.map_some', Option.some.injEq] at h
    rw [← h]
    simp only [List.length_append]
    omega

theorem restStages_inspect (unmarshal : Unmarshal) (exclude ignoreAccessLogSettings : Bool)
    (apiId : String) (apiStages : List String) (stages : List Stage) (acc : Findings)
    (hnames : ∀ s ∈ stages, s.StageName ≠ none) :
    stages.foldlM (checkRestStage unmarshal exclude ignoreAccessLogSettings apiId apiStages) acc =
      (stages.filter (fun s => decide (apiStages = []) ||
          (contains apiStages (s.StageName.getD "") != exclude))).foldlM
        (fun acc0 s =>
          (checkExecutionLog apiId (s.StageName.getD "") s.MethodSettings acc0).bind (fun acc1 =>
            if ignoreAccessLogSettings = true then some acc1
            else checkAccessLog unmarshal apiId (s.StageName.getD "") s.AccessLogSettings acc1))
        acc := by
  induction stages generalizing acc with
  | nil => rfl
  | cons s stages ih =>
    have hrest : ∀ t ∈ stages, t.StageName ≠ none := fun t ht => hnames t (List.mem_cons_of_mem _ ht)
    cases hn : s.StageName with
    | none => exact absurd hn (hnames s (List.mem_cons_self _ _))
    | some n =>
      rw [List.foldlM_cons, checkRestStage_inspect _ _ _ _ _ _ _ n hn]
      by_cases hk : (decide (apiStages = []) || (contains apiStages n != exclude)) = true
      · rw [List.filter_cons_of_pos (by simpa [hn] using hk), List.foldlM_cons, if_pos hk]
        simp only [hn, Option.getD_some]
        cases (checkExecutionLog apiId n s.MethodSettings acc).bind (fun acc1 =>
            if ignoreAccessLogSettings = true then some acc1
            else checkAccessLog unmarshal apiId n s.AccessLogSettings acc1) with
        | none => rfl
        | some acc1 => exact ih acc1 hrest
      · rw [List.filter_cons_of_neg (by simpa [hn] using hk), if_neg hk]
        exact ih acc hrest

theorem v2Stages_inspect (unmarshal : Unmarshal) (exclude : Bool)
    (apiId : String) (apiStages : List String) (stages : List StageV2) (acc : Findings)
    (hnames : ∀ s ∈ stages, s.StageName ≠ none) :
    stages.foldlM (checkV2Stage unmarshal exclude apiId apiStages) acc =
      (stages.filter (fun s => decide (apiStages = []) ||
          (contains apiStages (s.StageName.getD "") != exclude))).foldlM
        (fun acc0 s =>
          checkAccessLog unmarshal apiId (s.StageName.getD "") s.AccessLogSettings acc0) acc := by
  induction stages generalizing acc with
  | nil => rfl
  | cons s stages ih =>
    have hrest : ∀ t ∈ stages, t.StageName ≠ none := fun t ht => hnames t (List.mem_cons_of_mem _ ht)
    cases hn : s.StageName with
    | none => exact absurd hn (hnames s (List.mem_cons_self _ _))
    | some n =>
      rw [List.foldlM_cons, checkV2Stage_inspect _ _ _ _ _ _ n hn]
      by_cases hk : (decide (apiStages = []) || (contains apiStages n != exclude)) = true
      · rw [List.filter_cons_of_pos (by simpa [hn] using hk), List.foldlM_cons, if_pos hk]
        simp only [hn, Option.getD_some]
        cases checkAccessLog unmarshal apiId n s.AccessLogSettings acc with
        | none => rfl
        | some acc1 => exact ih acc1 hrest
      · rw [List.filter_cons_of_neg (by simpa [hn] using hk), if_neg hk]
        exact ih acc hrest

/-- C3. Stage-level filter of both stage loops.  A fetched, named stage `s` is
inspected when the selected list `apiStages` is empty, and, when it is non-empty,
exactly when `contains apiStages s != exclude`.  An inspected stage is handed to the
blocks of the verifier (in the REST family the execution-log block and then, unless
access-log settings are ignored, the access-log block; in the HTTP family the
access-log block), and wherever the access-log block runs the findings grow by at
least one; a stage that is not inspected leaves the findings as they are.  The loop
over the fetched stages runs these blocks over the inspected stages, in order, and
over every fetched stage when `apiStages` is empty. -/
theorem C3_stage_level_filter (unmarshal : Unmarshal) (exclude ignoreAccessLogSettings : Bool)
    (apiId : String) (apiStages : List String) :
    (∀ (stage : Stage) (stageName : String) (acc : Findings),
      stage.StageName = some stageName →
      ((apiStages = [] ∨ (contains apiStages stageName != exclude) = true) →
        checkRestStage unmarshal exclude ignoreAccessLogSettings apiId apiStages acc stage =
          (checkExecutionLog apiId stageName stage.MethodSettings acc).bind (fun acc1 =>
            if ignoreAccessLogSettings = true then some acc1
            else checkAccessLog unmarshal apiId stageName stage.AccessLogSettings acc1)) ∧
      ((apiStages = [] ∨ (contains apiStages stageName != exclude) = true) →
        ∀ acc1, checkRestStage unmarshal exclude false apiId apiStages acc stage = some acc1 →
          acc.1.length + acc.2.length < acc1.1.length + acc1.2.length) ∧
      (apiStages ≠ [] → (contains apiStages stageName != exclude) = false →
        checkRestStage unmarshal exclude ignoreAccessLogSettings apiId apiStages acc stage =
          some acc)) ∧
    (∀ (stage : StageV2) (stageName : String) (acc : Findings),
      stage.StageName = some stageName →
      ((apiStages = [] ∨ (contains apiStages stageName != exclude) = true) →
        checkV2Stage unmarshal exclude apiId apiStages acc stage =
          checkAccessLog unmarshal apiId stageName stage.AccessLogSettings acc) ∧
      ((apiStages = [] ∨ (contains apiStages stageName != exclude) = true) →
        ∀ acc1, checkV2Stage unmarshal exclude apiId apiStages acc stage = some acc1 →
          acc1.1.length + acc1.2.length = acc.1.length + acc.2.length + 1) ∧
      (apiStages ≠ [] → (contains apiStages stageName != exclude) = false →
        checkV2Stage unmarshal exclude apiId apiStages acc stage = some acc)) ∧
    (∀ (stages : List Stage) (acc : Findings), (∀ s ∈ stages, s.StageName ≠ none) →
      stages.foldlM (checkRestStage unmarshal exclude ignoreAccessLogSettings apiId apiStages) acc =
        (stages.filter (fun s => decide (apiStages = []) ||
            (contains apiStages (s.StageName.getD "") != exclude))).foldlM
          (fun acc0 s =>
            (checkExecutionLog apiId (s.StageName.getD "") s.MethodSettings acc0).bind
              (fun acc1 =>
                if ignoreAccessLogSettings = true then some acc1
                else checkAccessLog unmarshal apiId (s.StageName.getD "") s.AccessLogSettings
                  acc1))
          acc) ∧
    (∀ (stages : List StageV2) (acc : Findings), (∀ s ∈ stages, s.StageName ≠ none) →
      stages.foldlM (checkV2Stage unmarshal exclude apiId apiStages) acc =
        (stages.filter (fun s => decide (apiStages = []) ||
            (contains apiStages (s.StageName.getD "") != exclude))).foldlM
          (fun acc0 s =>
            checkAccessLog unmarshal apiId (s.StageName.getD "") s.AccessLogSettings acc0)
          acc) ∧
    (apiStages = [] →
      (∀ stages : List Stage,
        stages.filter (fun s => decide (apiStages = []) ||
          (contains apiStages (s.StageName.getD "") != exclude)) = stages) ∧
      (∀ stages : List StageV2,
        stages.filter (fun s => decide (apiStages = []) ||
          (contains apiStages (s.StageName.getD "") != exclude)) = stages)) := by
  refine ⟨?_, ?_, fun stages acc h => restStages_inspect _ _ _ _ _ stages acc h,
    fun stages acc h => v2Stages_inspect _ _ _ _ stages acc h, ?_⟩
  · intro stage stageName acc hname
    have hcond : (apiStages = [] ∨ (contains apiStages stageName != exclude) = true) →
        (decide (apiStages = []) || (contains apiStages stageName != exclude)) = true := by
      intro h
      simpa using h
    refine ⟨?_, ?_, ?_⟩
    · intro h
      rw [checkRestStage_inspect _ _ _ _ _ _ _ stageName hname, if_pos (hcond h)]
    · intro h acc1 hres
      rw [checkRestStage_inspect _ _ _ _ _ _ _ stageName hname, if_pos (hcond h)] at hres
      cases he : checkExecutionLog apiId stageName stage.MethodSettings acc with
      | none => simp [he] at hres
      | some acc2 =>
        simp only [he, Option.some_bind, Bool.false_eq_true, if_false] at hres
        have h1 := checkExecutionLog_grows apiId stageName _ acc acc2 he
        have h2 := checkAccessLog_grows unmarshal apiId stageName _ acc2 acc1 hres
        omega
    · intro hne hc
      rw [checkRestStage_inspect _ _ _ _ _ _ _ stageName hname]
      simp [hne, hc]
  · intro stage stageName acc hname
    have hcond : (apiStages = [] ∨ (contains apiStages stageName != exclude) = true) →
        (decide (apiStages = []) || (contains apiStages stageName != exclude)) = true := by
      intro h
      simpa using h
    refine ⟨?_, ?_, ?_⟩
    · intro h
      rw [checkV2Stage_inspect _ _ _ _ _ _ stageName hname, if_pos (hcond h)]
    · intro h acc1 hres
      rw [checkV2Stage_inspect _ _ _ _ _ _ stageName hname, if_pos (hcond h)] at hres
      exact checkAccessLog_grows unmarshal apiId stageName _ acc acc1 hres
    · intro hne hc
      rw [checkV2Stage_inspect _ _ _ _ _ _ stageName hname]
      simp [hne, hc]
  · intro hnil
    exact ⟨fun stages => by simp [hnil], fun stages => by simp [hnil]⟩

/-- C3 at the gateway `A` with the fetched stages `prod` and `dev`, neither with
settings: with the selected list `[prod]` the loop warns about `prod` alone in
include mode and about `dev` alone in exclude mode, and with the empty list about
both; the HTTP stage `prod` is passed over under `[prod]` in exclude mode and gets
its one finding in include mode. -/
theorem C3_stage_level_filter_witness :
    (∀ s ∈ [mkStage "prod" none none, mkStage "dev" none none], s.StageName ≠ none) ∧
    [mkStage "prod" none none, mkStage "dev" none none].foldlM
        (checkRestStage sampleUnmarshal true false "A" ["prod"]) ([], []) =
      ([mkStage "prod" none none, mkStage "dev" none none].filter
        (fun s => decide (["prod"] = []) ||
          (contains ["prod"] (s.StageName.getD "") != true))).foldlM
        (fun acc0 s =>
          (checkExecutionLog "A" (s.StageName.getD "") s.MethodSettings acc0).bind
            (fun acc1 =>
              if false = true then some acc1
              else checkAccessLog sampleUnmarshal "A" (s.StageName.getD "") s.AccessLogSettings
                acc1))
        ([], []) ∧
    [mkStage "prod" none none, mkStage "dev" none none].foldlM
        (checkRestStage sampleUnmarshal true false "A" ["prod"]) ([], []) =
      some ([warnDiagnostic "Access logs not enabled for REST API A stage dev"], []) ∧
    [mkStage "prod" none none, mkStage "dev" none none].foldlM
        (checkRestStage sampleUnmarshal false false "A" ["prod"]) ([], []) =
      some ([warnDiagnostic "Access logs not enabled for REST API A stage prod"], []) ∧
    [mkStage "prod" none none, mkStage "dev" none none].foldlM
        (checkRestStage sampleUnmarshal false false "A" []) ([], []) =
      some ([warnDiagnostic "Access logs not enabled for REST API A stage prod",
             warnDiagnostic "Access logs not enabled for REST API A stage dev"], []) ∧
    [mkStage "prod" none none, mkStage "dev" none none].foldlM
        (checkRestStage sampleUnmarshal true false "A" []) ([], []) =
      some ([warnDiagnostic "Access logs not enabled for REST API A stage prod",
             warnDiagnostic "Access logs not enabled for REST API A stage dev"], []) ∧
    checkV2Stage sampleUnmarshal true "A" ["prod"] ([], []) compliantStageV2 = some ([], []) ∧
    checkV2Stage sampleUnmarshal false "A" ["prod"] ([], []) compliantStageV2 =
      some ([], ["audit"]) :=
  ⟨by decide,
   (C3_stage_level_filter sampleUnmarshal true false "A" ["prod"]).2.2.1 _ ([], [])
     (by decide),
   by decide, by decide, by decide, by decide,
   ((C3_stage_level_filter sampleUnmarshal true false "A" ["prod"]).2.1 compliantStageV2
      "prod" ([], []) rfl).2.2 (by decide) (by decide),
   by decide⟩

end Provider
